import Mathlib

/-!
Verification of the tzstats-go client library core against its
natural-language specification.

The Go sources are shallowly embedded: pure functions become Lean
functions, method receivers become explicit arguments, fallible Go code
returns a result type with distinct constructors for a returned error and
for a Go runtime panic, and machine integers are modelled as Nat / Int
with explicit two's-complement wrapping where overflow matters.
External capabilities (the tzgo micheline/tezos value codecs, stdlib
float parsing, RFC3339 time parsing) are either quantified function
parameters bundled in an ExtDeps record or wrapper types, exactly as the
spec declares them out of scope.
-/

/-- Kind of Go runtime panic that library code can raise. -/
inductive PanicKind where
  | indexOutOfRange
  | typeAssertion
  deriving DecidableEq

/-- Error values returned by embedded Go code (strconv errors, external
parser errors, wrapped errors with added context). -/
inductive Err where
  | badSyntax (fn : String) (input : String)
  | outOfRange (fn : String) (input : String)
  | extFail (msg : String)
  | wrapCtx (ctx : String) (inner : Err)
  deriving DecidableEq

/-- Outcome of running a piece of embedded Go code: a value, a returned
error, or a runtime panic. -/
inductive Res (α : Type) where
  | ok (a : α)
  | err (e : Err)
  | goPanic (p : PanicKind)
  deriving DecidableEq

/-- Map over the success value of a result. -/
def Res.map {α β : Type} (f : α → β) : Res α → Res β
  | .ok a => .ok (f a)
  | .err e => .err e
  | .goPanic p => .goPanic p

/-- Sequence two fallible computations. -/
def Res.bind {α β : Type} (x : Res α) (f : α → Res β) : Res β :=
  match x with
  | .ok a => f a
  | .err e => .err e
  | .goPanic p => .goPanic p

/-- True iff the result is a returned (non-panic) error. -/
def Res.isErr {α : Type} : Res α → Bool
  | .err _ => true
  | _ => false

/-- True iff the result is a success. -/
def Res.isOk {α : Type} : Res α → Bool
  | .ok _ => true
  | _ => false

/-- A JSON value as decoded by encoding/json with UseNumber: numbers keep
their raw decimal text. -/
inductive JsonVal where
  | null
  | num (s : String)
  | str (s : String)
  | boolean (b : Bool)
  | arr (elems : List JsonVal)
  | objv (fields : List (String × JsonVal))

/-- The nil-interface test f == nil performed by every brief decoder
before its type switch. -/
def JsonVal.isNull : JsonVal → Bool
  | .null => true
  | _ => false

/-- Indexing a Go slice: some value when in range, none when the access
would panic with index out of range. -/
def listGet? {α : Type} : List α → Nat → Option α
  | [], _ => none
  | x :: _, 0 => some x
  | _ :: xs, n + 1 => listGet? xs n

/-- Value of a decimal digit character, none for a non-digit. -/
def digitVal (c : Char) : Option Nat :=
  if 48 ≤ c.toNat ∧ c.toNat ≤ 57 then some (c.toNat - 48) else none

/-- Accumulate decimal digits into a natural number; none on any
non-digit character. -/
def decDigits : List Char → Nat → Option Nat
  | [], acc => some acc
  | c :: cs, acc =>
    match digitVal c with
    | some d => decDigits cs (acc * 10 + d)
    | none => none

/-- strconv.ParseUint(s, 10, 64): digits only, no sign, range below 2^64. -/
def parseU64 (s : String) : Res Nat :=
  match s.data with
  | [] => .err (.badSyntax "ParseUint" s)
  | l =>
    match decDigits l 0 with
    | none => .err (.badSyntax "ParseUint" s)
    | some n => if n < 2 ^ 64 then .ok n else .err (.outOfRange "ParseUint" s)

/-- strconv.ParseInt(s, 10, 64): optional sign, range within int64. -/
def parseI64 (s : String) : Res Int :=
  match s.data with
  | [] => .err (.badSyntax "ParseInt" s)
  | c :: rest =>
    if c = '-' then
      match rest with
      | [] => .err (.badSyntax "ParseInt" s)
      | l =>
        match decDigits l 0 with
        | none => .err (.badSyntax "ParseInt" s)
        | some n => if n ≤ 2 ^ 63 then .ok (-(n : Int)) else .err (.outOfRange "ParseInt" s)
    else if c = '+' then
      match rest with
      | [] => .err (.badSyntax "ParseInt" s)
      | l =>
        match decDigits l 0 with
        | none => .err (.badSyntax "ParseInt" s)
        | some n => if n < 2 ^ 63 then .ok (n : Int) else .err (.outOfRange "ParseInt" s)
    else
      match decDigits (c :: rest) 0 with
      | none => .err (.badSyntax "ParseInt" s)
      | some n => if n < 2 ^ 63 then .ok (n : Int) else .err (.outOfRange "ParseInt" s)

/-- strconv.Atoi on a 64-bit platform: same accepted language and range
as ParseInt(s, 10, 64). -/
def goAtoi (s : String) : Res Int :=
  parseI64 s

/-- strconv.ParseBool: the exact accepted literals. -/
def parseBoolG (s : String) : Res Bool :=
  if s = "1" ∨ s = "t" ∨ s = "T" ∨ s = "true" ∨ s = "TRUE" ∨ s = "True" then .ok true
  else if s = "0" ∨ s = "f" ∨ s = "F" ∨ s = "false" ∨ s = "FALSE" ∨ s = "False" then .ok false
  else .err (.badSyntax "ParseBool" s)

/-- Two's-complement wrap of an integer into the int64 range. -/
def wrap64 (x : Int) : Int :=
  (x + 2 ^ 63) % 2 ^ 64 - 2 ^ 63

/-- Go int64 multiplication (wraps on overflow). -/
def goMul64 (a b : Int) : Int :=
  wrap64 (a * b)

/-- Type assertion f.(json.Number): yields the raw number text, panics on
any other dynamic type (null is handled before assertions in all
decoders). -/
def asNum : JsonVal → Res String
  | .num s => .ok s
  | _ => .goPanic .typeAssertion

/-- Type assertion f.(string): yields the string, panics otherwise. -/
def asStr : JsonVal → Res String
  | .str s => .ok s
  | _ => .goPanic .typeAssertion

/-- hex.DecodeString: pairs of hex digits to bytes; errors on an invalid
character or odd length. -/
def hexDigit (c : Char) : Option Nat :=
  if 48 ≤ c.toNat ∧ c.toNat ≤ 57 then some (c.toNat - 48)
  else if 97 ≤ c.toNat ∧ c.toNat ≤ 102 then some (c.toNat - 87)
  else if 65 ≤ c.toNat ∧ c.toNat ≤ 70 then some (c.toNat - 55)
  else none

/-- Decode a list of hex characters two at a time. -/
def hexPairs : List Char → Res (List Nat)
  | [] => .ok []
  | [_] => .err (.badSyntax "hex.DecodeString" "odd length hex string")
  | a :: b :: rest =>
    match hexDigit a, hexDigit b with
    | some ha, some hb => (hexPairs rest).map (fun tl => (ha * 16 + hb) :: tl)
    | _, _ => .err (.badSyntax "hex.DecodeString" "invalid byte")

/-- hex.DecodeString on a string. -/
def hexDecode (s : String) : Res (List Nat) :=
  hexPairs s.data

/-- tezos.BlockHash, embedded as its parsed textual form; the base58
codec itself lives in the external tzgo dependency. -/
structure BlockHashT where
  repr58 : String
  deriving DecidableEq

/-- tezos.OpHash wrapper. -/
structure OpHash where
  repr58 : String
  deriving DecidableEq

/-- tezos.Address wrapper. -/
structure Address where
  repr58 : String
  deriving DecidableEq

/-- tezos.ProtocolHash wrapper. -/
structure ProtocolHash where
  repr58 : String
  deriving DecidableEq

/-- tezos.VotingPeriodKind: an integer enum in tzgo; zero value is the
invalid kind. -/
structure VotingPeriodKind where
  code : Nat
  deriving DecidableEq

/-- tezos.OpType: an integer enum in tzgo. -/
structure OpTypeT where
  code : Nat
  deriving DecidableEq

/-- tezos.OpStatus: an integer enum in tzgo. -/
structure OpStatusT where
  code : Nat
  deriving DecidableEq

/-- Go float64 values, abstracted: every float in the repository is
produced by an external strconv parse whose behaviour is a quantified
parameter, so the carrier only needs to be some inhabited type with
decidable equality. -/
structure F64 where
  raw : String
  deriving DecidableEq

/-- The Go zero float64. -/
def f64zero : F64 := ⟨"0"⟩

/-- time.Time, reduced to nanoseconds since the Unix epoch;
time.Unix(0, ns).UTC() denotes the instant with exactly those
nanoseconds (the UTC call only changes the display location). -/
structure Instant where
  ns : Int
  deriving DecidableEq

/-- An opaque decoded subtree (metadata map, rights list, embedded
operation list) produced by a nested decoder that this development
treats as external. -/
structure RawTree where
  val : JsonVal

/-- micheline.Type wrapper (external tzgo type descriptor). -/
structure MichType where
  id : Nat
  deriving DecidableEq

/-- micheline.Entrypoints wrapper. -/
structure EntrypointsT where
  id : Nat
  deriving DecidableEq

/-- ContractParameters as produced by the parameters column branch;
its internals come from the external micheline pipeline. -/
structure ContractParameters where
  rendered : Nat
  deriving DecidableEq

/-- ContractStorage as produced by the storage column branch. -/
structure ContractStorage where
  rendered : Nat
  deriving DecidableEq

/-- One decoded bigmap update from the big_map_diff column branch. -/
structure BigmapUpdate where
  rendered : Nat
  deriving DecidableEq

/-- External capabilities used by the decoders: tzgo parsers, stdlib
float and RFC3339 parsing, and the compressed micheline pipelines of the
parameters / storage / big_map_diff branches. Every theorem quantifies
over this record, so no behaviour is assumed of the externals. -/
structure ExtDeps where
  parseFloat : String → Res F64
  parseBlockHash : String → Res BlockHashT
  parseOpHash : String → Res OpHash
  parseAddress : String → Res Address
  parseProtocolHash : String → Res ProtocolHash
  parseVotingPeriod : String → VotingPeriodKind
  parseOpType : String → OpTypeT
  parseOpStatus : String → OpStatusT
  parseTimeRFC : String → Res Instant
  parseMetadataObj : JsonVal → Res RawTree
  parseRightsObj : JsonVal → Res RawTree
  parseOpsObj : JsonVal → Res RawTree
  decodeParameters : MichType → Bool → Int → List Nat → Res ContractParameters
  decodeStorage : MichType → Bool → Int → List Nat → Res ContractStorage
  decodeBigmapDiff : List (Int × MichType) → Bool → Bool → Bool → Address → Instant → Int → Int → List Nat → Res (List BigmapUpdate)

/-- The Block record of block.go with its Go field types mapped to the
embedding (uint64 to Nat, int64 and int to Int, float64 to F64,
pointers to Option, time.Time to Instant). -/
structure Block where
  RowId : Nat
  Hash : BlockHashT
  ParentHash : Option BlockHashT
  FollowerHash : Option BlockHashT
  Timestamp : Instant
  Height : Int
  Cycle : Int
  IsCycleSnapshot : Bool
  Solvetime : Int
  Version : Int
  Round : Int
  Nonce : String
  VotingPeriodKind : VotingPeriodKind
  BakerId : Nat
  Baker : Address
  ProposerId : Nat
  Proposer : Address
  NSlotsEndorsed : Int
  NOpsApplied : Int
  NOpsFailed : Int
  NContractCalls : Int
  NEvents : Int
  Volume : F64
  Fee : F64
  Reward : F64
  Deposit : F64
  ActivatedSupply : F64
  MintedSupply : F64
  BurnedSupply : F64
  SeenAccounts : Int
  NewAccounts : Int
  NewContracts : Int
  ClearedAccounts : Int
  FundedAccounts : Int
  GasLimit : Int
  GasUsed : Int
  StoragePaid : Int
  PctAccountReuse : F64
  LbEscapeVote : Bool
  LbEscapeEma : Int
  Protocol : ProtocolHash
  Metadata : Option RawTree
  Rights : Option RawTree
  Ops : Option RawTree
  columns : List String

/-- The Go zero value Block{}. -/
def blockDefault : Block where
  RowId := 0
  Hash := ⟨""⟩
  ParentHash := none
  FollowerHash := none
  Timestamp := ⟨0⟩
  Height := 0
  Cycle := 0
  IsCycleSnapshot := false
  Solvetime := 0
  Version := 0
  Round := 0
  Nonce := ""
  VotingPeriodKind := ⟨0⟩
  BakerId := 0
  Baker := ⟨""⟩
  ProposerId := 0
  Proposer := ⟨""⟩
  NSlotsEndorsed := 0
  NOpsApplied := 0
  NOpsFailed := 0
  NContractCalls := 0
  NEvents := 0
  Volume := f64zero
  Fee := f64zero
  Reward := f64zero
  Deposit := f64zero
  ActivatedSupply := f64zero
  MintedSupply := f64zero
  BurnedSupply := f64zero
  SeenAccounts := 0
  NewAccounts := 0
  NewContracts := 0
  ClearedAccounts := 0
  FundedAccounts := 0
  GasLimit := 0
  GasUsed := 0
  StoragePaid := 0
  PctAccountReuse := f64zero
  LbEscapeVote := false
  LbEscapeEma := 0
  Protocol := ⟨""⟩
  Metadata := none
  Rights := none
  Ops := none
  columns := []

/-- The per-column dispatch switch of Block.UnmarshalJSONBrief
(block.go). Each case asserts the dynamic type of the element, parses
it, and on success sets exactly one field of the freshly built record;
unknown column names fall through to the no-op default. The case list
is copied verbatim from the source switch: note it contains
n_contract_calls (which matches no wire column, since the struct tag
is n_calls) and no case for successor, n_calls, metadata, rights or
ops. -/
def applyBlockCol (ext : ExtDeps) (r : Block) (c : String) (v : JsonVal) : Res Block :=
  match c with
  | "row_id" => ((asNum v).bind parseU64).map (fun x => { r with RowId := x })
  | "hash" => ((asStr v).bind ext.parseBlockHash).map (fun x => { r with Hash := x })
  | "predecessor" => ((asStr v).bind ext.parseBlockHash).map (fun x => { r with ParentHash := some x })
  | "time" => ((asNum v).bind parseI64).map (fun ts => { r with Timestamp := ⟨goMul64 ts 1000000⟩ })
  | "height" => ((asNum v).bind parseI64).map (fun x => { r with Height := x })
  | "cycle" => ((asNum v).bind parseI64).map (fun x => { r with Cycle := x })
  | "is_cycle_snapshot" => ((asNum v).bind parseBoolG).map (fun x => { r with IsCycleSnapshot := x })
  | "solvetime" => ((asNum v).bind goAtoi).map (fun x => { r with Solvetime := x })
  | "version" => ((asNum v).bind goAtoi).map (fun x => { r with Version := x })
  | "round" => ((asNum v).bind goAtoi).map (fun x => { r with Round := x })
  | "nonce" => (asStr v).map (fun x => { r with Nonce := x })
  | "voting_period_kind" => (asStr v).map (fun x => { r with VotingPeriodKind := ext.parseVotingPeriod x })
  | "baker_id" => ((asNum v).bind parseU64).map (fun x => { r with BakerId := x })
  | "baker" => ((asStr v).bind ext.parseAddress).map (fun x => { r with Baker := x })
  | "proposer_id" => ((asNum v).bind parseU64).map (fun x => { r with ProposerId := x })
  | "proposer" => ((asStr v).bind ext.parseAddress).map (fun x => { r with Proposer := x })
  | "n_endorsed_slots" => ((asNum v).bind goAtoi).map (fun x => { r with NSlotsEndorsed := x })
  | "n_ops_applied" => ((asNum v).bind goAtoi).map (fun x => { r with NOpsApplied := x })
  | "n_ops_failed" => ((asNum v).bind goAtoi).map (fun x => { r with NOpsFailed := x })
  | "n_contract_calls" => ((asNum v).bind goAtoi).map (fun x => { r with NContractCalls := x })
  | "n_events" => ((asNum v).bind goAtoi).map (fun x => { r with NEvents := x })
  | "volume" => ((asNum v).bind ext.parseFloat).map (fun x => { r with Volume := x })
  | "fee" => ((asNum v).bind ext.parseFloat).map (fun x => { r with Fee := x })
  | "reward" => ((asNum v).bind ext.parseFloat).map (fun x => { r with Reward := x })
  | "deposit" => ((asNum v).bind ext.parseFloat).map (fun x => { r with Deposit := x })
  | "activated_supply" => ((asNum v).bind ext.parseFloat).map (fun x => { r with ActivatedSupply := x })
  | "minted_supply" => ((asNum v).bind ext.parseFloat).map (fun x => { r with MintedSupply := x })
  | "burned_supply" => ((asNum v).bind ext.parseFloat).map (fun x => { r with BurnedSupply := x })
  | "n_accounts" => ((asNum v).bind goAtoi).map (fun x => { r with SeenAccounts := x })
  | "n_new_accounts" => ((asNum v).bind goAtoi).map (fun x => { r with NewAccounts := x })
  | "n_new_contracts" => ((asNum v).bind goAtoi).map (fun x => { r with NewContracts := x })
  | "n_cleared_accounts" => ((asNum v).bind goAtoi).map (fun x => { r with ClearedAccounts := x })
  | "n_funded_accounts" => ((asNum v).bind goAtoi).map (fun x => { r with FundedAccounts := x })
  | "gas_limit" => ((asNum v).bind parseI64).map (fun x => { r with GasLimit := x })
  | "gas_used" => ((asNum v).bind parseI64).map (fun x => { r with GasUsed := x })
  | "storage_paid" => ((asNum v).bind parseI64).map (fun x => { r with StoragePaid := x })
  | "pct_account_reuse" => ((asNum v).bind ext.parseFloat).map (fun x => { r with PctAccountReuse := x })
  | "lb_esc_vote" => ((asNum v).bind parseBoolG).map (fun x => { r with LbEscapeVote := x })
  | "lb_esc_ema" => ((asNum v).bind parseI64).map (fun x => { r with LbEscapeEma := x })
  | "protocol" => ((asStr v).bind ext.parseProtocolHash).map (fun x => { r with Protocol := x })
  | _ => .ok r

/-- The shared loop shape of every UnmarshalJSONBrief in the repository:
iterate the column list with its index, fetch unpacked[i] (a Go slice
index that panics when out of range), skip explicit nulls, otherwise run
the per-column dispatch, aborting on the first error. -/
def briefLoopG {σ : Type} (apply : σ → String → JsonVal → Res σ) (unpacked : List JsonVal) : List String → Nat → σ → Res σ
  | [], _, acc => .ok acc
  | c :: cs, i, acc =>
    match listGet? unpacked i with
    | none => .goPanic .indexOutOfRange
    | some f =>
      if f.isNull then briefLoopG apply unpacked cs (i + 1) acc
      else
        match apply acc c f with
        | .ok acc2 => briefLoopG apply unpacked cs (i + 1) acc2
        | .err e => .err e
        | .goPanic p => .goPanic p

/-- Core of Block.UnmarshalJSONBrief: build a fresh zero Block and run
the column loop over the already-unpacked JSON array. -/
def blockUnmarshalJSONBrief (ext : ExtDeps) (cols : List String) (unpacked : List JsonVal) : Res Block :=
  briefLoopG (applyBlockCol ext) unpacked cols 0 blockDefault

/-- Block.UnmarshalJSONBrief as a method on the receiver: the loop runs
on a fresh local record using the receiver's column list, and only a
fully successful decode assigns the local over the receiver. -/
def blockBriefMethod (ext : ExtDeps) (b : Block) (unpacked : List JsonVal) : Block × Res Unit :=
  match blockUnmarshalJSONBrief ext b.columns unpacked with
  | .ok blk => (blk, .ok ())
  | .err e => (b, .err e)
  | .goPanic p => (b, .goPanic p)

/-- Enumeration of the Block columns that are both a wire column (a json
struct tag) and a recognized case of the brief-decode switch. The two
tag names missing from the switch (n_calls and successor) and the three
object-only tags (metadata, rights, ops) are deliberately absent. -/
inductive BCol where
  | rowId | hash | predecessor | time | height | cycle | isCycleSnapshot
  | solvetime | version | round | nonce | votingPeriodKind | bakerId
  | baker | proposerId | proposer | nEndorsedSlots | nOpsApplied
  | nOpsFailed | nEvents | volume | fee | reward | deposit
  | activatedSupply | mintedSupply | burnedSupply | nAccounts
  | nNewAccounts | nNewContracts | nClearedAccounts | nFundedAccounts
  | gasLimit | gasUsed | storagePaid | pctAccountReuse | lbEscVote
  | lbEscEma | protocol
  deriving DecidableEq, Fintype

/-- Enumeration of every data field of the Block record. -/
inductive BField where
  | rowId | hash | parentHash | followerHash | timestamp | height | cycle
  | isCycleSnapshot | solvetime | version | round | nonce
  | votingPeriodKind | bakerId | baker | proposerId | proposer
  | nSlotsEndorsed | nOpsApplied | nOpsFailed | nContractCalls | nEvents
  | volume | fee | reward | deposit | activatedSupply | mintedSupply
  | burnedSupply | seenAccounts | newAccounts | newContracts
  | clearedAccounts | fundedAccounts | gasLimit | gasUsed | storagePaid
  | pctAccountReuse | lbEscVote | lbEscEma | protocol | metadata
  | rights | ops
  deriving DecidableEq, Fintype

/-- Wire (struct tag) name of a recognized column. -/
def BCol.name : BCol → String
  | .rowId => "row_id"
  | .hash => "hash"
  | .predecessor => "predecessor"
  | .time => "time"
  | .height => "height"
  | .cycle => "cycle"
  | .isCycleSnapshot => "is_cycle_snapshot"
  | .solvetime => "solvetime"
  | .version => "version"
  | .round => "round"
  | .nonce => "nonce"
  | .votingPeriodKind => "voting_period_kind"
  | .bakerId => "baker_id"
  | .baker => "baker"
  | .proposerId => "proposer_id"
  | .proposer => "proposer"
  | .nEndorsedSlots => "n_endorsed_slots"
  | .nOpsApplied => "n_ops_applied"
  | .nOpsFailed => "n_ops_failed"
  | .nEvents => "n_events"
  | .volume => "volume"
  | .fee => "fee"
  | .reward => "reward"
  | .deposit => "deposit"
  | .activatedSupply => "activated_supply"
  | .mintedSupply => "minted_supply"
  | .burnedSupply => "burned_supply"
  | .nAccounts => "n_accounts"
  | .nNewAccounts => "n_new_accounts"
  | .nNewContracts => "n_new_contracts"
  | .nClearedAccounts => "n_cleared_accounts"
  | .nFundedAccounts => "n_funded_accounts"
  | .gasLimit => "gas_limit"
  | .gasUsed => "gas_used"
  | .storagePaid => "storage_paid"
  | .pctAccountReuse => "pct_account_reuse"
  | .lbEscVote => "lb_esc_vote"
  | .lbEscEma => "lb_esc_ema"
  | .protocol => "protocol"

/-- The Block field a recognized column populates. -/
def BCol.field : BCol → BField
  | .rowId => .rowId
  | .hash => .hash
  | .predecessor => .parentHash
  | .time => .timestamp
  | .height => .height
  | .cycle => .cycle
  | .isCycleSnapshot => .isCycleSnapshot
  | .solvetime => .solvetime
  | .version => .version
  | .round => .round
  | .nonce => .nonce
  | .votingPeriodKind => .votingPeriodKind
  | .bakerId => .bakerId
  | .baker => .baker
  | .proposerId => .proposerId
  | .proposer => .proposer
  | .nEndorsedSlots => .nSlotsEndorsed
  | .nOpsApplied => .nOpsApplied
  | .nOpsFailed => .nOpsFailed
  | .nEvents => .nEvents
  | .volume => .volume
  | .fee => .fee
  | .reward => .reward
  | .deposit => .deposit
  | .activatedSupply => .activatedSupply
  | .mintedSupply => .mintedSupply
  | .burnedSupply => .burnedSupply
  | .nAccounts => .seenAccounts
  | .nNewAccounts => .newAccounts
  | .nNewContracts => .newContracts
  | .nClearedAccounts => .clearedAccounts
  | .nFundedAccounts => .fundedAccounts
  | .gasLimit => .gasLimit
  | .gasUsed => .gasUsed
  | .storagePaid => .storagePaid
  | .pctAccountReuse => .pctAccountReuse
  | .lbEscVote => .lbEscVote
  | .lbEscEma => .lbEscEma
  | .protocol => .protocol

/-- Sum of all Block field value types, used to compare one field across
records. -/
inductive BVal where
  | natv (n : Nat)
  | intv (i : Int)
  | boolv (b : Bool)
  | strv (s : String)
  | fltv (f : F64)
  | hashv (h : BlockHashT)
  | ohashv (h : Option BlockHashT)
  | instv (t : Instant)
  | vpkv (k : VotingPeriodKind)
  | addrv (a : Address)
  | protov (p : ProtocolHash)
  | treev (t : Option RawTree)

/-- Project one field of a Block as a BVal. -/
def blockGet : BField → Block → BVal
  | .rowId, r => .natv r.RowId
  | .hash, r => .hashv r.Hash
  | .parentHash, r => .ohashv r.ParentHash
  | .followerHash, r => .ohashv r.FollowerHash
  | .timestamp, r => .instv r.Timestamp
  | .height, r => .intv r.Height
  | .cycle, r => .intv r.Cycle
  | .isCycleSnapshot, r => .boolv r.IsCycleSnapshot
  | .solvetime, r => .intv r.Solvetime
  | .version, r => .intv r.Version
  | .round, r => .intv r.Round
  | .nonce, r => .strv r.Nonce
  | .votingPeriodKind, r => .vpkv r.VotingPeriodKind
  | .bakerId, r => .natv r.BakerId
  | .baker, r => .addrv r.Baker
  | .proposerId, r => .natv r.ProposerId
  | .proposer, r => .addrv r.Proposer
  | .nSlotsEndorsed, r => .intv r.NSlotsEndorsed
  | .nOpsApplied, r => .intv r.NOpsApplied
  | .nOpsFailed, r => .intv r.NOpsFailed
  | .nContractCalls, r => .intv r.NContractCalls
  | .nEvents, r => .intv r.NEvents
  | .volume, r => .fltv r.Volume
  | .fee, r => .fltv r.Fee
  | .reward, r => .fltv r.Reward
  | .deposit, r => .fltv r.Deposit
  | .activatedSupply, r => .fltv r.ActivatedSupply
  | .mintedSupply, r => .fltv r.MintedSupply
  | .burnedSupply, r => .fltv r.BurnedSupply
  | .seenAccounts, r => .intv r.SeenAccounts
  | .newAccounts, r => .intv r.NewAccounts
  | .newContracts, r => .intv r.NewContracts
  | .clearedAccounts, r => .intv r.ClearedAccounts
  | .fundedAccounts, r => .intv r.FundedAccounts
  | .gasLimit, r => .intv r.GasLimit
  | .gasUsed, r => .intv r.GasUsed
  | .storagePaid, r => .intv r.StoragePaid
  | .pctAccountReuse, r => .fltv r.PctAccountReuse
  | .lbEscVote, r => .boolv r.LbEscapeVote
  | .lbEscEma, r => .intv r.LbEscapeEma
  | .protocol, r => .protov r.Protocol
  | .metadata, r => .treev r.Metadata
  | .rights, r => .treev r.Rights
  | .ops, r => .treev r.Ops

/-- The complete, ordered list of wire column names of Block: one per
struct field, exactly as tagged in block.go. -/
def blockTagColumns : List String :=
  ["row_id", "hash", "predecessor", "successor", "time", "height",
   "cycle", "is_cycle_snapshot", "solvetime", "version", "round",
   "nonce", "voting_period_kind", "baker_id", "baker", "proposer_id",
   "proposer", "n_endorsed_slots", "n_ops_applied", "n_ops_failed",
   "n_calls", "n_events", "volume", "fee", "reward", "deposit",
   "activated_supply", "minted_supply", "burned_supply", "n_accounts",
   "n_new_accounts", "n_new_contracts", "n_cleared_accounts",
   "n_funded_accounts", "gas_limit", "gas_used", "storage_paid",
   "pct_account_reuse", "lb_esc_vote", "lb_esc_ema", "protocol",
   "metadata", "rights", "ops"]

/-- A JSON-string field decode in object form: a string token is
required, anything else is a type error. -/
def objStr (key : String) : JsonVal → Res String
  | .str s => .ok s
  | _ => .err (.badSyntax "json.Unmarshal" key)

/-- A JSON-number field decode in object form: the literal text of a
number token. -/
def objNum (key : String) : JsonVal → Res String
  | .num s => .ok s
  | _ => .err (.badSyntax "json.Unmarshal" key)

/-- A JSON-bool field decode in object form. -/
def objBool (key : String) : JsonVal → Res Bool
  | .boolean b => .ok b
  | _ => .err (.badSyntax "json.Unmarshal" key)

/-- One key of the verbose, name-keyed object form of Block, following
encoding/json field matching on the struct tags of block.go: integers
parse from the literal text via strconv, floats and tezos types go
through their (external) parsers, a null element zeroes pointer, map
and slice fields and leaves every other field untouched, and unknown
keys are ignored. -/
def applyBlockObjField (ext : ExtDeps) (r : Block) (key : String) (v : JsonVal) : Res Block :=
  if v.isNull then
    match key with
    | "predecessor" => .ok { r with ParentHash := none }
    | "successor" => .ok { r with FollowerHash := none }
    | "metadata" => .ok { r with Metadata := none }
    | "rights" => .ok { r with Rights := none }
    | "ops" => .ok { r with Ops := none }
    | _ => .ok r
  else
    match key with
    | "row_id" => ((objNum key v).bind parseU64).map (fun x => { r with RowId := x })
    | "hash" => ((objStr key v).bind ext.parseBlockHash).map (fun x => { r with Hash := x })
    | "predecessor" => ((objStr key v).bind ext.parseBlockHash).map (fun x => { r with ParentHash := some x })
    | "successor" => ((objStr key v).bind ext.parseBlockHash).map (fun x => { r with FollowerHash := some x })
    | "time" => ((objStr key v).bind ext.parseTimeRFC).map (fun x => { r with Timestamp := x })
    | "height" => ((objNum key v).bind parseI64).map (fun x => { r with Height := x })
    | "cycle" => ((objNum key v).bind parseI64).map (fun x => { r with Cycle := x })
    | "is_cycle_snapshot" => (objBool key v).map (fun x => { r with IsCycleSnapshot := x })
    | "solvetime" => ((objNum key v).bind goAtoi).map (fun x => { r with Solvetime := x })
    | "version" => ((objNum key v).bind goAtoi).map (fun x => { r with Version := x })
    | "round" => ((objNum key v).bind goAtoi).map (fun x => { r with Round := x })
    | "nonce" => (objStr key v).map (fun x => { r with Nonce := x })
    | "voting_period_kind" => (objStr key v).map (fun x => { r with VotingPeriodKind := ext.parseVotingPeriod x })
    | "baker_id" => ((objNum key v).bind parseU64).map (fun x => { r with BakerId := x })
    | "baker" => ((objStr key v).bind ext.parseAddress).map (fun x => { r with Baker := x })
    | "proposer_id" => ((objNum key v).bind parseU64).map (fun x => { r with ProposerId := x })
    | "proposer" => ((objStr key v).bind ext.parseAddress).map (fun x => { r with Proposer := x })
    | "n_endorsed_slots" => ((objNum key v).bind goAtoi).map (fun x => { r with NSlotsEndorsed := x })
    | "n_ops_applied" => ((objNum key v).bind goAtoi).map (fun x => { r with NOpsApplied := x })
    | "n_ops_failed" => ((objNum key v).bind goAtoi).map (fun x => { r with NOpsFailed := x })
    | "n_calls" => ((objNum key v).bind goAtoi).map (fun x => { r with NContractCalls := x })
    | "n_events" => ((objNum key v).bind goAtoi).map (fun x => { r with NEvents := x })
    | "volume" => ((objNum key v).bind ext.parseFloat).map (fun x => { r with Volume := x })
    | "fee" => ((objNum key v).bind ext.parseFloat).map (fun x => { r with Fee := x })
    | "reward" => ((objNum key v).bind ext.parseFloat).map (fun x => { r with Reward := x })
    | "deposit" => ((objNum key v).bind ext.parseFloat).map (fun x => { r with Deposit := x })
    | "activated_supply" => ((objNum key v).bind ext.parseFloat).map (fun x => { r with ActivatedSupply := x })
    | "minted_supply" => ((objNum key v).bind ext.parseFloat).map (fun x => { r with MintedSupply := x })
    | "burned_supply" => ((objNum key v).bind ext.parseFloat).map (fun x => { r with BurnedSupply := x })
    | "n_accounts" => ((objNum key v).bind goAtoi).map (fun x => { r with SeenAccounts := x })
    | "n_new_accounts" => ((objNum key v).bind goAtoi).map (fun x => { r with NewAccounts := x })
    | "n_new_contracts" => ((objNum key v).bind goAtoi).map (fun x => { r with NewContracts := x })
    | "n_cleared_accounts" => ((objNum key v).bind goAtoi).map (fun x => { r with ClearedAccounts := x })
    | "n_funded_accounts" => ((objNum key v).bind goAtoi).map (fun x => { r with FundedAccounts := x })
    | "gas_limit" => ((objNum key v).bind parseI64).map (fun x => { r with GasLimit := x })
    | "gas_used" => ((objNum key v).bind parseI64).map (fun x => { r with GasUsed := x })
    | "storage_paid" => ((objNum key v).bind parseI64).map (fun x => { r with StoragePaid := x })
    | "pct_account_reuse" => ((objNum key v).bind ext.parseFloat).map (fun x => { r with PctAccountReuse := x })
    | "lb_esc_vote" => (objBool key v).map (fun x => { r with LbEscapeVote := x })
    | "lb_esc_ema" => ((objNum key v).bind parseI64).map (fun x => { r with LbEscapeEma := x })
    | "protocol" => ((objStr key v).bind ext.parseProtocolHash).map (fun x => { r with Protocol := x })
    | "metadata" => (ext.parseMetadataObj v).map (fun x => { r with Metadata := some x })
    | "rights" => (ext.parseRightsObj v).map (fun x => { r with Rights := some x })
    | "ops" => (ext.parseOpsObj v).map (fun x => { r with Ops := some x })
    | _ => .ok r

/-- The verbose object form of a Block row: fold the decoded key/value
pairs into the receiver. -/
def blockUnmarshalObject (ext : ExtDeps) (r : Block) : List (String × JsonVal) → Res Block
  | [] => .ok r
  | (k, v) :: rest =>
    match applyBlockObjField ext r k v with
    | .ok r2 => blockUnmarshalObject ext r2 rest
    | .err e => .err e
    | .goPanic p => .goPanic p

/-- A concrete instantiation of the external dependencies, used only to
evaluate the embedding at concrete inputs. -/
def extTest : ExtDeps where
  parseFloat := fun s => .ok ⟨s⟩
  parseBlockHash := fun s => .ok ⟨s⟩
  parseOpHash := fun s => .ok ⟨s⟩
  parseAddress := fun s => .ok ⟨s⟩
  parseProtocolHash := fun s => .ok ⟨s⟩
  parseVotingPeriod := fun _ => ⟨1⟩
  parseOpType := fun _ => ⟨1⟩
  parseOpStatus := fun _ => ⟨1⟩
  parseTimeRFC := fun s => .ok ⟨(s.length : Int)⟩
  parseMetadataObj := fun v => .ok ⟨v⟩
  parseRightsObj := fun v => .ok ⟨v⟩
  parseOpsObj := fun v => .ok ⟨v⟩
  decodeParameters := fun _ _ _ _ => .ok ⟨0⟩
  decodeStorage := fun _ _ _ _ => .ok ⟨0⟩
  decodeBigmapDiff := fun _ _ _ _ _ _ _ _ _ => .ok []

/-- The Op record of op.go. Data and Errors are json.RawMessage fields
holding the re-marshalled element; Batch, Internal and Metadata only
appear in the object form and are kept opaque; the trailing fields are
the unexported decode context (columns, script types, flags). -/
structure Op where
  RowId : Nat
  Hash : OpHash
  -- Go field name Type (a Lean keyword)
  TypeTag : OpTypeT
  BlockHash : BlockHashT
  Timestamp : Instant
  Height : Int
  Cycle : Int
  Counter : Int
  OpL : Int
  OpP : Int
  OpC : Int
  OpI : Int
  Status : OpStatusT
  GasLimit : Int
  GasUsed : Int
  GasPrice : F64
  StorageLimit : Int
  StorageSize : Int
  StoragePaid : Int
  Volume : F64
  Fee : F64
  Reward : F64
  Deposit : F64
  Burned : F64
  SenderId : Nat
  Sender : Address
  ReceiverId : Nat
  Receiver : Address
  CreatorId : Nat
  Creator : Address
  DelegateId : Nat
  Delegate : Address
  IsSuccess : Bool
  IsContract : Bool
  IsInternal : Bool
  IsImplicit : Bool
  HasData : Bool
  Data : Option JsonVal
  Parameters : Option ContractParameters
  Storage : Option ContractStorage
  BigmapDiff : List BigmapUpdate
  Errors : Option JsonVal
  TDD : F64
  BranchHeight : Int
  BranchDepth : Int
  BranchHash : BlockHashT
  Entrypoint : Int
  IsOrphan : Bool
  IsBatch : Bool
  IsSapling : Bool
  BatchVolume : F64
  Metadata : Option RawTree
  Batch : Option RawTree
  Internal : Option RawTree
  NOps : Int
  columns : List String
  param : MichType
  store : MichType
  eps : EntrypointsT
  bigmaps : List (Int × MichType)
  withPrim : Bool
  withMeta : Bool
  onError : Int

/-- The Go zero value Op{}. -/
def opDefault : Op where
  RowId := 0
  Hash := ⟨""⟩
  TypeTag := ⟨0⟩
  BlockHash := ⟨""⟩
  Timestamp := ⟨0⟩
  Height := 0
  Cycle := 0
  Counter := 0
  OpL := 0
  OpP := 0
  OpC := 0
  OpI := 0
  Status := ⟨0⟩
  GasLimit := 0
  GasUsed := 0
  GasPrice := f64zero
  StorageLimit := 0
  StorageSize := 0
  StoragePaid := 0
  Volume := f64zero
  Fee := f64zero
  Reward := f64zero
  Deposit := f64zero
  Burned := f64zero
  SenderId := 0
  Sender := ⟨""⟩
  ReceiverId := 0
  Receiver := ⟨""⟩
  CreatorId := 0
  Creator := ⟨""⟩
  DelegateId := 0
  Delegate := ⟨""⟩
  IsSuccess := false
  IsContract := false
  IsInternal := false
  IsImplicit := false
  HasData := false
  Data := none
  Parameters := none
  Storage := none
  BigmapDiff := []
  Errors := none
  TDD := f64zero
  BranchHeight := 0
  BranchDepth := 0
  BranchHash := ⟨""⟩
  Entrypoint := 0
  IsOrphan := false
  IsBatch := false
  IsSapling := false
  BatchVolume := f64zero
  Metadata := none
  Batch := none
  Internal := none
  NOps := 0
  columns := []
  param := ⟨0⟩
  store := ⟨0⟩
  eps := ⟨0⟩
  bigmaps := []
  withPrim := false
  withMeta := false
  onError := 0

/-- The per-column dispatch switch of Op.UnmarshalJSONBrief (op.go).
octx is the method receiver, read for the decode context (param, store,
bigmaps, flags); op is the freshly built local record. The parameters,
storage and big_map_diff branches keep the repository-level control flow
(string assertion, hex decode, empty-buffer skip) and compress the
external micheline pipeline into one quantified function each; the
big_map_diff compression receives both the receiver withPrim flag and
the local record's (always false) withPrim flag, which the source'
alloc/copy sub-branch reads by mistake. -/
def applyOpCol (ext : ExtDeps) (octx : Op) (op : Op) (c : String) (v : JsonVal) : Res Op :=
  match c with
  | "row_id" => ((asNum v).bind parseU64).map (fun x => { op with RowId := x })
  | "time" => ((asNum v).bind parseI64).map (fun ts => { op with Timestamp := ⟨goMul64 ts 1000000⟩ })
  | "block" => ((asStr v).bind ext.parseBlockHash).map (fun x => { op with BlockHash := x })
  | "height" => ((asNum v).bind parseI64).map (fun x => { op with Height := x })
  | "cycle" => ((asNum v).bind parseI64).map (fun x => { op with Cycle := x })
  | "hash" => ((asStr v).bind ext.parseOpHash).map (fun x => { op with Hash := x })
  | "counter" => ((asNum v).bind parseI64).map (fun x => { op with Counter := x })
  | "op_c" => ((asNum v).bind goAtoi).map (fun x => { op with OpC := x })
  | "op_i" => ((asNum v).bind goAtoi).map (fun x => { op with OpI := x })
  | "op_l" => ((asNum v).bind goAtoi).map (fun x => { op with OpL := x })
  | "op_p" => ((asNum v).bind goAtoi).map (fun x => { op with OpP := x })
  | "type" => (asStr v).map (fun x => { op with TypeTag := ext.parseOpType x })
  | "status" => (asStr v).map (fun x => { op with Status := ext.parseOpStatus x })
  | "gas_limit" => ((asNum v).bind parseI64).map (fun x => { op with GasLimit := x })
  | "gas_used" => ((asNum v).bind parseI64).map (fun x => { op with GasUsed := x })
  | "gas_price" => ((asNum v).bind ext.parseFloat).map (fun x => { op with GasPrice := x })
  | "storage_limit" => ((asNum v).bind parseI64).map (fun x => { op with StorageLimit := x })
  | "storage_size" => ((asNum v).bind parseI64).map (fun x => { op with StorageSize := x })
  | "storage_paid" => ((asNum v).bind parseI64).map (fun x => { op with StoragePaid := x })
  | "volume" => ((asNum v).bind ext.parseFloat).map (fun x => { op with Volume := x })
  | "fee" => ((asNum v).bind ext.parseFloat).map (fun x => { op with Fee := x })
  | "reward" => ((asNum v).bind ext.parseFloat).map (fun x => { op with Reward := x })
  | "deposit" => ((asNum v).bind ext.parseFloat).map (fun x => { op with Deposit := x })
  | "burned" => ((asNum v).bind ext.parseFloat).map (fun x => { op with Burned := x })
  | "sender_id" => ((asNum v).bind parseU64).map (fun x => { op with SenderId := x })
  | "sender" => ((asStr v).bind ext.parseAddress).map (fun x => { op with Sender := x })
  | "receiver_id" => ((asNum v).bind parseU64).map (fun x => { op with ReceiverId := x })
  | "receiver" => ((asStr v).bind ext.parseAddress).map (fun x => { op with Receiver := x })
  | "creator_id" => ((asNum v).bind parseU64).map (fun x => { op with CreatorId := x })
  | "creator" => ((asStr v).bind ext.parseAddress).map (fun x => { op with Creator := x })
  | "delegate_id" => ((asNum v).bind parseU64).map (fun x => { op with DelegateId := x })
  | "delegate" => ((asStr v).bind ext.parseAddress).map (fun x => { op with Delegate := x })
  | "is_success" => ((asNum v).bind parseBoolG).map (fun x => { op with IsSuccess := x })
  | "is_contract" => ((asNum v).bind parseBoolG).map (fun x => { op with IsContract := x })
  | "is_internal" => ((asNum v).bind parseBoolG).map (fun x => { op with IsInternal := x })
  | "is_implicit" => ((asNum v).bind parseBoolG).map (fun x => { op with IsImplicit := x })
  | "has_data" => ((asNum v).bind parseBoolG).map (fun x => { op with HasData := x })
  | "data" => .ok { op with Data := some v }
  | "parameters" =>
    (asStr v).bind (fun s =>
      (hexDecode s).bind (fun buf =>
        if buf = [] then .ok op
        else (ext.decodeParameters octx.param octx.withPrim octx.onError buf).map
          (fun p => { op with Parameters := some p })))
  | "storage" =>
    (asStr v).bind (fun s =>
      (hexDecode s).bind (fun buf =>
        if buf = [] then .ok op
        else (ext.decodeStorage octx.store octx.withPrim octx.onError buf).map
          (fun p => { op with Storage := some p })))
  | "big_map_diff" =>
    (asStr v).bind (fun s =>
      (hexDecode s).bind (fun buf =>
        if buf = [] then .ok op
        else (ext.decodeBigmapDiff octx.bigmaps octx.withPrim op.withPrim octx.withMeta op.Receiver op.Timestamp op.Height octx.onError buf).map
          (fun l => { op with BigmapDiff := l })))
  | "errors" => .ok { op with Errors := some v }
  | "days_destroyed" => ((asNum v).bind ext.parseFloat).map (fun x => { op with TDD := x })
  | "branch_height" => ((asNum v).bind parseI64).map (fun x => { op with BranchHeight := x })
  | "branch_depth" => ((asNum v).bind parseI64).map (fun x => { op with BranchDepth := x })
  | "entrypoint_id" => ((asNum v).bind goAtoi).map (fun x => { op with Entrypoint := x })
  | _ => .ok op

/-- Core of Op.UnmarshalJSONBrief: run the column loop on a fresh zero
Op, reading the decode context from the receiver. -/
def opUnmarshalJSONBrief (ext : ExtDeps) (octx : Op) (unpacked : List JsonVal) : Res Op :=
  briefLoopG (applyOpCol ext octx) unpacked octx.columns 0 opDefault

/-- Op.UnmarshalJSONBrief as a method: only a fully successful decode
assigns the fresh local over the receiver. -/
def opBriefMethod (ext : ExtDeps) (o : Op) (unpacked : List JsonVal) : Op × Res Unit :=
  match opUnmarshalJSONBrief ext o unpacked with
  | .ok op => (op, .ok ())
  | .err e => (o, .err e)
  | .goPanic p => (o, .goPanic p)

/-- Modelled from the spec: a Go error value as classified by the
isNetError helper (error.go is not under src/); the spec calls these
transient network failures (connection refused, timeout, DNS failure).
The classification is carried as an attribute so that theorems can
quantify over arbitrary classifier behaviour. -/
structure GoErr where
  isNet : Bool
  code : Nat
  deriving DecidableEq

/-- Outcome of one Client.transport.Do attempt. -/
structure HttpResp where
  status : Nat
  body : List Nat
  readErr : Option GoErr
  contentType : String
  contentLength : Int
  deriving DecidableEq

/-- Result of one HTTP attempt: a response (any status) or a transport
error. -/
inductive DoResult where
  | resp (r : HttpResp)
  | fail (e : GoErr)
  deriving DecidableEq

/-- Modelled from the spec: the typed error taxonomy delivered to
callers (error.go with newHttpError / newRateLimitError is not under
src/). The spec requires the four kinds to stay distinguishable; the
resume deadline of a rate-limit error is carried in nanoseconds. -/
inductive ClientErr where
  | fromGo (e : GoErr)
  | readWrap (e : GoErr)
  | rateLimited (deadlineNs : Int) (status : Nat)
  | httpStatus (status : Nat) (body : List Nat)
  | unmarshalWrap (e : GoErr)
  deriving DecidableEq

/-- How the retry loop of Client.handleRequest (part_007) terminated. -/
inductive LoopOut where
  | ctxCancelled (attempts : Nat)
  | brk (res : DoResult) (attempts : Nat)
  | exhausted (e : GoErr) (attempts : Nat)
  deriving DecidableEq

/-- The retry loop of Client.handleRequest: transport gives the outcome
of each attempt (indexed from 0) and ctxDone says whether the request
context fires during the wait that follows a transient failure. The
counter argument is the Go loop counter minus one: the source runs
for retries := numRetries + 1; retries > 0; retries-- , attempts once
per iteration, breaks on any response or non-transient error, and
returns the context error when cancellation fires during the
inter-attempt wait (the wait also follows the last failed attempt). -/
def retryLoop (transport : Nat → DoResult) (ctxDone : Nat → Bool) : Nat → Nat → LoopOut
  | r, k =>
    match transport k with
    | .resp rr => .brk (.resp rr) (k + 1)
    | .fail e =>
      if e.isNet = false then .brk (.fail e) (k + 1)
      else if ctxDone k then .ctxCancelled (k + 1)
      else
        match r with
        | 0 => .exhausted e (k + 1)
        | r' + 1 => retryLoop transport ctxDone r' (k + 1)

/-- The fixed default rate-limit window of the 429 branch:
wait := 5 * time.Second, in nanoseconds. -/
def rateLimitDefaultWaitNs : Int := 5 * 1000000000

/-- bytes prefix test used by the content sniffing. -/
def bodyOpensJson : List Nat → Bool
  | b :: _ => b = 123 ∨ b = 91
  | [] => false

/-- Whether the second character list starts with the first. -/
def startsWithChars : List Char → List Char → Bool
  | [], _ => true
  | _ :: _, [] => false
  | p :: ps, c :: cs => p = c && startsWithChars ps cs

/-- Whether the character list contains the pattern as a contiguous
run. -/
def containsChars (sub : List Char) : List Char → Bool
  | [] => sub.isEmpty
  | c :: cs => startsWithChars sub (c :: cs) || containsChars sub cs

/-- strings.Contains on the decoded character lists. -/
def goContains (s sub : String) : Bool :=
  containsChars sub.data s.data

/-- Post-loop processing of a received response in Client.handleRequest:
streaming path for a 200 with an io.Writer target, then body read, then
the status-error branch (429 becomes a distinguished rate-limit error
with the fixed default window; any other status at or above 400 becomes
an HTTP status error carrying the body), then JSON unmarshalling for
structured bodies. unmarshal models json.Unmarshal into the caller's
value. -/
def processResp (rr : HttpResp) (isWriterSink : Bool) (wantResult : Bool) (streamCopyErr : Option GoErr) (unmarshal : List Nat → Option GoErr) : Option ClientErr :=
  if rr.status = 200 ∧ wantResult ∧ isWriterSink then
    match streamCopyErr with
    | some e => some (.fromGo e)
    | none => none
  else
    match rr.readErr with
    | some e => some (.readWrap e)
    | none =>
      if 400 ≤ rr.status then
        if rr.status = 429 then some (.rateLimited rateLimitDefaultWaitNs rr.status)
        else some (.httpStatus rr.status rr.body)
      else
        if (goContains rr.contentType "application/json" ∨ bodyOpensJson rr.body)
            ∧ wantResult ∧ (0 < rr.contentLength ∨ rr.contentLength = -1) then
          match unmarshal rr.body with
          | some e => some (.unmarshalWrap e)
          | none => none
        else none

/-- What handleRequest delivers on the response channel: the attempt
count is tracked by the model to state the retry-bound property. -/
structure HandleOut where
  attempts : Nat
  errOut : Option ClientErr
  status : Option Nat
  deriving DecidableEq

/-- Client.handleRequest (part_007): run the retry loop and deliver
either the context error, the final transport error, or the processed
response. ctxErr is the value the request context's Err() returns. -/
def handleRequestModel (numRetries : Nat) (transport : Nat → DoResult) (ctxDone : Nat → Bool) (ctxErr : GoErr) (isWriterSink wantResult : Bool) (streamCopyErr : Option GoErr) (unmarshal : List Nat → Option GoErr) : HandleOut :=
  match retryLoop transport ctxDone numRetries 0 with
  | .ctxCancelled n => { attempts := n, errOut := some (.fromGo ctxErr), status := none }
  | .exhausted e n => { attempts := n, errOut := some (.fromGo e), status := none }
  | .brk (.fail e) n => { attempts := n, errOut := some (.fromGo e), status := none }
  | .brk (.resp rr) n =>
    { attempts := n
      errOut := processResp rr isWriterSink wantResult streamCopyErr unmarshal
      status := some rr.status }

/-- Client.WithRetry: a negative count is the unbounded sentinel and
stores max int minus one. -/
def withRetryNumRetries (num : Int) : Nat :=
  if num < 0 then 2 ^ 63 - 2 else num.toNat

/-- Modelled from the spec: the url.Values query map underneath Params
(params.go is not under src/); Set replaces all values of a key by the
single given value, Get returns the first value or the empty string. -/
def valuesSet : List (String × List String) → String → String → List (String × List String)
  | [], k, v => [(k, [v])]
  | kv :: rest, k, v => if kv.1 = k then (k, [v]) :: rest else kv :: valuesSet rest k v

/-- url.Values.Get: first value of the key, or the empty string when the
key is absent or has no values. -/
def valuesGet (q : List (String × List String)) (k : String) : String :=
  match q.find? (fun kv => kv.1 = k) with
  | some (_, v :: _) => v
  | _ => ""

/-- One table filter: (mode, column, value); the value is none exactly
when the Go interface value is nil. -/
structure FilterT where
  Mode : String
  Column : String
  Value : Option String
  deriving DecidableEq

/-- FilterList.Add: appends a filter whose value is the stringified
argument list, hence never nil. -/
def filterAdd (l : List FilterT) (mode col val : String) : List FilterT :=
  l ++ [{ Mode := mode, Column := col, Value := some val }]

/-- tableQuery (table.go) restricted to the state Url and Check read.
The embedded Params is its query map. -/
structure TableQueryT where
  params : List (String × List String)
  Table : String
  Format : String
  Columns : List String
  Limit : Int
  Cursor : Nat
  Verbose : Bool
  Prim : Bool
  Filter : List FilterT
  Order : String
  deriving DecidableEq

/-- Decimal rendering used for cursor and limit parameters. -/
def formatNatDec (n : Nat) : String := Nat.repr n

/-- strconv.Itoa on the (always positive here) limit. -/
def formatIntDec (i : Int) : String := Int.repr i

/-- strings.Join(cols, comma). -/
def joinComma : List String → String
  | [] => ""
  | [c] => c
  | c :: rest => c ++ "," ++ joinComma rest

/-- ToString of the already-stringified filter value (a nil interface
renders as the empty string). -/
def filterValueStr : Option String → String
  | some s => s
  | none => ""

/-- Apply the filter serialization loop of Url: one
column.mode = value parameter per filter, in order. -/
def setFilters (q : List (String × List String)) : List FilterT → List (String × List String)
  | [] => q
  | f :: rest => setFilters (valuesSet q (f.Column ++ "." ++ f.Mode) (filterValueStr f.Value)) rest

/-- The query-parameter state tableQuery.Url builds just before
rendering: a positive cursor is always Set (overwriting), limit and
columns only when the existing value is empty, then verbose, the
filters, and order. -/
def tqCursorStep (q : TableQueryT) : List (String × List String) :=
  if 0 < q.Cursor then valuesSet q.params "cursor" (formatNatDec q.Cursor) else q.params

/-- Second mutation of Url: set limit only when Limit is positive and no
limit value is present. -/
def tqLimitStep (q : TableQueryT) : List (String × List String) :=
  if 0 < q.Limit ∧ valuesGet (tqCursorStep q) "limit" = "" then
    valuesSet (tqCursorStep q) "limit" (formatIntDec q.Limit)
  else tqCursorStep q

/-- Third mutation of Url: set columns only when requested and absent. -/
def tqColumnsStep (q : TableQueryT) : List (String × List String) :=
  if q.Columns ≠ [] ∧ valuesGet (tqLimitStep q) "columns" = "" then
    valuesSet (tqLimitStep q) "columns" (joinComma q.Columns)
  else tqLimitStep q

/-- Remaining mutations of Url: verbose flag, the filter parameters, and
order. -/
def tableQueryUrlValues (q : TableQueryT) : List (String × List String) :=
  valuesSet
    (setFilters
      (if q.Verbose then valuesSet (tqColumnsStep q) "verbose" "true" else tqColumnsStep q)
      q.Filter)
    "order" q.Order

/-- Modelled from the spec: Params.Url renders path and query string
(params.go is not under src/); the query-parameter claims are stated on
tableQueryUrlValues, which is the table.go half of Url. -/
def renderQuery : List (String × List String) → String
  | [] => ""
  | (k, vs) :: rest =>
    (match vs with
     | [] => k
     | v :: _ => k ++ "=" ++ v) ++
    (match rest with
     | [] => ""
     | _ => "&" ++ renderQuery rest)

/-- tableQuery.Url: path tables/name.format (empty format defaults to
json) plus the built query parameters. -/
def tableQueryUrl (q : TableQueryT) : String :=
  let fmt := if q.Format = "" then "json" else q.Format
  "tables/" ++ q.Table ++ "." ++ fmt ++ "?" ++ renderQuery (tableQueryUrlValues q)

/-- First validation failure among the filters, as in tableQuery.Check:
empty column, then empty mode, then nil value. -/
def firstBadFilter : List FilterT → Option Err
  | [] => none
  | f :: rest =>
    if f.Column = "" then some (.extFail "empty filter column name")
    else if f.Mode = "" then some (.extFail "invalid filter mode")
    else
      match f.Value with
      | none => some (.extFail "empty value for filter column")
      | some _ => firstBadFilter rest

/-- tableQuery.Check: Params.Check first (an abstract argument, since
params.go is not under src/), then table name, filters, and the format
switch in which json, csv and the empty (defaulting) format pass. -/
def tableQueryCheck (paramsCheck : List (String × List String) → Option Err) (q : TableQueryT) : Option Err :=
  match paramsCheck q.params with
  | some e => some e
  | none =>
    if q.Table = "" then some (.extFail "empty table name")
    else
      match firstBadFilter q.Filter with
      | some e => some e
      | none =>
        if q.Format = "json" ∨ q.Format = "csv" ∨ q.Format = "" then none
        else some (.extFail "unsupported format")

/-- Client.QueryTable: validate, and only on success dispatch one
network call (the oracle); the second component counts network calls. -/
def queryTableModel (paramsCheck : List (String × List String) → Option Err) (oracle : TableQueryT → Res Unit) (q : TableQueryT) : Res Unit × Nat :=
  match tableQueryCheck paramsCheck q with
  | some e => (.err e, 0)
  | none => (oracle q, 1)

/-- micheline.Prim wrapper; the zero value Prim{} is the empty prim. -/
structure MichPrim where
  tag : Nat
  deriving DecidableEq

/-- The Code section of a micheline.Script: parameter, storage, code and
view subtrees. -/
structure MichScriptCode where
  param : MichPrim
  storage : MichPrim
  code : MichPrim
  view : MichPrim
  deriving DecidableEq

/-- micheline.Script wrapper: the code section plus the current storage
data. -/
structure MichScript where
  codeSec : MichScriptCode
  storageData : MichPrim
  deriving DecidableEq

/-- micheline.Typedef wrapper. -/
structure TypedefT where
  id : Nat
  deriving DecidableEq

/-- micheline.Views wrapper. -/
structure ViewsT where
  id : Nat
  deriving DecidableEq

/-- ContractScript of tzstats/contract.go: the fetched script plus the
bigmap tables derived by loadCachedContractScript. -/
structure ContractScriptT where
  script : MichScript
  storageType : TypedefT
  entrypoints : EntrypointsT
  views : ViewsT
  bigmapNames : List (String × Int)
  bigmapTypes : List (String × MichType)
  bigmapTypesById : List (Int × MichType)
  deriving DecidableEq

/-- Go map read with zero default: BigmapNames[n]. -/
def assocLookupD (l : List (String × Int)) (k : String) : Int :=
  match l.find? (fun kv => kv.1 = k) with
  | some (_, v) => v
  | none => 0

/-- Build BigmapTypesById by joining BigmapTypes against BigmapNames, as
in the miss path of loadCachedContractScript. -/
def deriveById (names : List (String × Int)) (types : List (String × MichType)) : List (Int × MichType) :=
  types.map (fun nt => (assocLookupD names nt.1, nt.2))

/-- The miss-path processing of loadCachedContractScript: zero the Code
and View subtrees of the fetched script (dropping the executable body),
then derive the bigmap name map, type map and id-keyed type map from
the stripped script. bigmapsOf and bigmapTypesOf are the external
micheline derivations Script.Bigmaps and Script.BigmapTypes. -/
def stripAndDerive (bigmapsOf : MichScript → List (String × Int)) (bigmapTypesOf : MichScript → List (String × MichType)) (raw : ContractScriptT) : ContractScriptT :=
  let stripped : MichScript :=
    { raw.script with codeSec := { raw.script.codeSec with code := ⟨0⟩, view := ⟨0⟩ } }
  let names := bigmapsOf stripped
  let types := bigmapTypesOf stripped
  { raw with
      script := stripped
      bigmapNames := names
      bigmapTypes := types
      bigmapTypesById := deriveById names types }

/-- The descriptor cache, keyed by the contract address string. The lru
TwoQueueCache is an external dependency; it is modelled as a map, which
is exact while the entry remains cached (no eviction happens between
the observed calls). -/
def cacheGet (cache : List (String × ContractScriptT)) (k : String) : Option ContractScriptT :=
  match cache.find? (fun kv => kv.1 = k) with
  | some (_, s) => some s
  | none => none

/-- lru Add: replace any entry of the key and insert the new value. -/
def cacheAdd : List (String × ContractScriptT) → String → ContractScriptT → List (String × ContractScriptT)
  | [], k, s => [(k, s)]
  | kv :: rest, k, s => if kv.1 = k then (k, s) :: rest else kv :: cacheAdd rest k s

/-- Client.loadCachedContractScript (tzstats/contract.go): return the
cached descriptor on a hit; on a miss fetch the script (one network
call), strip and derive, populate the cache and return. The middle
component counts network fetches performed by the call. -/
def loadCachedContractScript (bigmapsOf : MichScript → List (String × Int)) (bigmapTypesOf : MichScript → List (String × MichType)) (fetch : String → Res ContractScriptT) (cache : List (String × ContractScriptT)) (addrStr : String) : Res ContractScriptT × Nat × List (String × ContractScriptT) :=
  match cacheGet cache addrStr with
  | some s => (.ok s, 0, cache)
  | none =>
    match fetch addrStr with
    | .ok raw =>
      let s := stripAndDerive bigmapsOf bigmapTypesOf raw
      (.ok s, 1, cacheAdd cache addrStr s)
    | .err e => (.err e, 1, cache)
    | .goPanic p => (.goPanic p, 1, cache)

/-- Repeated calls of loadCachedContractScript for one address,
threading the cache and summing the network fetches. -/
def repeatLoad (bigmapsOf : MichScript → List (String × Int)) (bigmapTypesOf : MichScript → List (String × MichType)) (fetch : String → Res ContractScriptT) : Nat → List (String × ContractScriptT) → String → Nat × List (Res ContractScriptT) × List (String × ContractScriptT)
  | 0, cache, _ => (0, [], cache)
  | k + 1, cache, a =>
    match loadCachedContractScript bigmapsOf bigmapTypesOf fetch cache a with
    | (r, n, cache2) =>
      match repeatLoad bigmapsOf bigmapTypesOf fetch k cache2 a with
      | (m, rs, cache3) => (n + m, r :: rs, cache3)

-- Helper lemmas and claim theorems follow.

/-- Inversion of a successful Res.map. -/
theorem resMapOk {α β : Type} {f : α → β} {x : Res α} {b : β} (h : Res.map f x = Res.ok b) :
    ∃ a, x = Res.ok a ∧ b = f a := by
  cases x with
  | ok a => exact ⟨a, rfl, by cases h; rfl⟩
  | err e => simp [Res.map] at h
  | goPanic p => simp [Res.map] at h

/-- Case row_id of the Block switch: only the rowId field changes, and
the assigned value does not depend on the record being built. -/
theorem blockColCase_rowId (ext : ExtDeps) (r : Block) (v : JsonVal) (b1 : Block)
    (h : applyBlockCol ext r "row_id" v = Res.ok b1) :
    (∀ f : BField, f ≠ BField.rowId → blockGet f b1 = blockGet f r) ∧
    (∀ r2 : Block, ∃ b2 : Block, applyBlockCol ext r2 "row_id" v = Res.ok b2 ∧
      blockGet BField.rowId b2 = blockGet BField.rowId b1) := by
  have h2 : Res.map (fun x => ({ r with RowId := x } : Block)) ((asNum v).bind parseU64) = Res.ok b1 := h
  obtain ⟨a, hx, hb⟩ := resMapOk h2
  subst hb
  constructor
  · intro f hf
    cases f <;> first | rfl | exact absurd rfl hf
  · intro r2
    refine ⟨{ r2 with RowId := a }, ?_, rfl⟩
    have h3 : Res.map (fun x => ({ r2 with RowId := x } : Block)) ((asNum v).bind parseU64) = Res.ok ({ r2 with RowId := a } : Block) := by rw [hx]; rfl
    exact h3

/-- Case hash of the Block switch: only the hash field changes, and
the assigned value does not depend on the record being built. -/
theorem blockColCase_hash (ext : ExtDeps) (r : Block) (v : JsonVal) (b1 : Block)
    (h : applyBlockCol ext r "hash" v = Res.ok b1) :
    (∀ f : BField, f ≠ BField.hash → blockGet f b1 = blockGet f r) ∧
    (∀ r2 : Block, ∃ b2 : Block, applyBlockCol ext r2 "hash" v = Res.ok b2 ∧
      blockGet BField.hash b2 = blockGet BField.hash b1) := by
  have h2 : Res.map (fun x => ({ r with Hash := x } : Block)) ((asStr v).bind ext.parseBlockHash) = Res.ok b1 := h
  obtain ⟨a, hx, hb⟩ := resMapOk h2
  subst hb
  constructor
  · intro f hf
    cases f <;> first | rfl | exact absurd rfl hf
  · intro r2
    refine ⟨{ r2 with Hash := a }, ?_, rfl⟩
    have h3 : Res.map (fun x => ({ r2 with Hash := x } : Block)) ((asStr v).bind ext.parseBlockHash) = Res.ok ({ r2 with Hash := a } : Block) := by rw [hx]; rfl
    exact h3

/-- Case predecessor of the Block switch: only the parentHash field changes, and
the assigned value does not depend on the record being built. -/
theorem blockColCase_predecessor (ext : ExtDeps) (r : Block) (v : JsonVal) (b1 : Block)
    (h : applyBlockCol ext r "predecessor" v = Res.ok b1) :
    (∀ f : BField, f ≠ BField.parentHash → blockGet f b1 = blockGet f r) ∧
    (∀ r2 : Block, ∃ b2 : Block, applyBlockCol ext r2 "predecessor" v = Res.ok b2 ∧
      blockGet BField.parentHash b2 = blockGet BField.parentHash b1) := by
  have h2 : Res.map (fun x => ({ r with ParentHash := some x } : Block)) ((asStr v).bind ext.parseBlockHash) = Res.ok b1 := h
  obtain ⟨a, hx, hb⟩ := resMapOk h2
  subst hb
  constructor
  · intro f hf
    cases f <;> first | rfl | exact absurd rfl hf
  · intro r2
    refine ⟨{ r2 with ParentHash := some a }, ?_, rfl⟩
    have h3 : Res.map (fun x => ({ r2 with ParentHash := some x } : Block)) ((asStr v).bind ext.parseBlockHash) = Res.ok ({ r2 with ParentHash := some a } : Block) := by rw [hx]; rfl
    exact h3

/-- Case time of the Block switch: only the timestamp field changes, and
the assigned value does not depend on the record being built. -/
theorem blockColCase_time (ext : ExtDeps) (r : Block) (v : JsonVal) (b1 : Block)
    (h : applyBlockCol ext r "time" v = Res.ok b1) :
    (∀ f : BField, f ≠ BField.timestamp → blockGet f b1 = blockGet f r) ∧
    (∀ r2 : Block, ∃ b2 : Block, applyBlockCol ext r2 "time" v = Res.ok b2 ∧
      blockGet BField.timestamp b2 = blockGet BField.timestamp b1) := by
  have h2 : Res.map (fun x => ({ r with Timestamp := ⟨goMul64 x 1000000⟩ } : Block)) ((asNum v).bind parseI64) = Res.ok b1 := h
  obtain ⟨a, hx, hb⟩ := resMapOk h2
  subst hb
  constructor
  · intro f hf
    cases f <;> first | rfl | exact absurd rfl hf
  · intro r2
    refine ⟨{ r2 with Timestamp := ⟨goMul64 a 1000000⟩ }, ?_, rfl⟩
    have h3 : Res.map (fun x => ({ r2 with Timestamp := ⟨goMul64 x 1000000⟩ } : Block)) ((asNum v).bind parseI64) = Res.ok ({ r2 with Timestamp := ⟨goMul64 a 1000000⟩ } : Block) := by rw [hx]; rfl
    exact h3

/-- Case height of the Block switch: only the height field changes, and
the assigned value does not depend on the record being built. -/
theorem blockColCase_height (ext : ExtDeps) (r : Block) (v : JsonVal) (b1 : Block)
    (h : applyBlockCol ext r "height" v = Res.ok b1) :
    (∀ f : BField, f ≠ BField.height → blockGet f b1 = blockGet f r) ∧
    (∀ r2 : Block, ∃ b2 : Block, applyBlockCol ext r2 "height" v = Res.ok b2 ∧
      blockGet BField.height b2 = blockGet BField.height b1) := by
  have h2 : Res.map (fun x => ({ r with Height := x } : Block)) ((asNum v).bind parseI64) = Res.ok b1 := h
  obtain ⟨a, hx, hb⟩ := resMapOk h2
  subst hb
  constructor
  · intro f hf
    cases f <;> first | rfl | exact absurd rfl hf
  · intro r2
    refine ⟨{ r2 with Height := a }, ?_, rfl⟩
    have h3 : Res.map (fun x => ({ r2 with Height := x } : Block)) ((asNum v).bind parseI64) = Res.ok ({ r2 with Height := a } : Block) := by rw [hx]; rfl
    exact h3

/-- Case cycle of the Block switch: only the cycle field changes, and
the assigned value does not depend on the record being built. -/
theorem blockColCase_cycle (ext : ExtDeps) (r : Block) (v : JsonVal) (b1 : Block)
    (h : applyBlockCol ext r "cycle" v = Res.ok b1) :
    (∀ f : BField, f ≠ BField.cycle → blockGet f b1 = blockGet f r) ∧
    (∀ r2 : Block, ∃ b2 : Block, applyBlockCol ext r2 "cycle" v = Res.ok b2 ∧
      blockGet BField.cycle b2 = blockGet BField.cycle b1) := by
  have h2 : Res.map (fun x => ({ r with Cycle := x } : Block)) ((asNum v).bind parseI64) = Res.ok b1 := h
  obtain ⟨a, hx, hb⟩ := resMapOk h2
  subst hb
  constructor
  · intro f hf
    cases f <;> first | rfl | exact absurd rfl hf
  · intro r2
    refine ⟨{ r2 with Cycle := a }, ?_, rfl⟩
    have h3 : Res.map (fun x => ({ r2 with Cycle := x } : Block)) ((asNum v).bind parseI64) = Res.ok ({ r2 with Cycle := a } : Block) := by rw [hx]; rfl
    exact h3

/-- Case is_cycle_snapshot of the Block switch: only the isCycleSnapshot field changes, and
the assigned value does not depend on the record being built. -/
theorem blockColCase_isCycleSnapshot (ext : ExtDeps) (r : Block) (v : JsonVal) (b1 : Block)
    (h : applyBlockCol ext r "is_cycle_snapshot" v = Res.ok b1) :
    (∀ f : BField, f ≠ BField.isCycleSnapshot → blockGet f b1 = blockGet f r) ∧
    (∀ r2 : Block, ∃ b2 : Block, applyBlockCol ext r2 "is_cycle_snapshot" v = Res.ok b2 ∧
      blockGet BField.isCycleSnapshot b2 = blockGet BField.isCycleSnapshot b1) := by
  have h2 : Res.map (fun x => ({ r with IsCycleSnapshot := x } : Block)) ((asNum v).bind parseBoolG) = Res.ok b1 := h
  obtain ⟨a, hx, hb⟩ := resMapOk h2
  subst hb
  constructor
  · intro f hf
    cases f <;> first | rfl | exact absurd rfl hf
  · intro r2
    refine ⟨{ r2 with IsCycleSnapshot := a }, ?_, rfl⟩
    have h3 : Res.map (fun x => ({ r2 with IsCycleSnapshot := x } : Block)) ((asNum v).bind parseBoolG) = Res.ok ({ r2 with IsCycleSnapshot := a } : Block) := by rw [hx]; rfl
    exact h3

/-- Case solvetime of the Block switch: only the solvetime field changes, and
the assigned value does not depend on the record being built. -/
theorem blockColCase_solvetime (ext : ExtDeps) (r : Block) (v : JsonVal) (b1 : Block)
    (h : applyBlockCol ext r "solvetime" v = Res.ok b1) :
    (∀ f : BField, f ≠ BField.solvetime → blockGet f b1 = blockGet f r) ∧
    (∀ r2 : Block, ∃ b2 : Block, applyBlockCol ext r2 "solvetime" v = Res.ok b2 ∧
      blockGet BField.solvetime b2 = blockGet BField.solvetime b1) := by
  have h2 : Res.map (fun x => ({ r with Solvetime := x } : Block)) ((asNum v).bind goAtoi) = Res.ok b1 := h
  obtain ⟨a, hx, hb⟩ := resMapOk h2
  subst hb
  constructor
  · intro f hf
    cases f <;> first | rfl | exact absurd rfl hf
  · intro r2
    refine ⟨{ r2 with Solvetime := a }, ?_, rfl⟩
    have h3 : Res.map (fun x => ({ r2 with Solvetime := x } : Block)) ((asNum v).bind goAtoi) = Res.ok ({ r2 with Solvetime := a } : Block) := by rw [hx]; rfl
    exact h3

/-- Case version of the Block switch: only the version field changes, and
the assigned value does not depend on the record being built. -/
theorem blockColCase_version (ext : ExtDeps) (r : Block) (v : JsonVal) (b1 : Block)
    (h : applyBlockCol ext r "version" v = Res.ok b1) :
    (∀ f : BField, f ≠ BField.version → blockGet f b1 = blockGet f r) ∧
    (∀ r2 : Block, ∃ b2 : Block, applyBlockCol ext r2 "version" v = Res.ok b2 ∧
      blockGet BField.version b2 = blockGet BField.version b1) := by
  have h2 : Res.map (fun x => ({ r with Version := x } : Block)) ((asNum v).bind goAtoi) = Res.ok b1 := h
  obtain ⟨a, hx, hb⟩ := resMapOk h2
  subst hb
  constructor
  · intro f hf
    cases f <;> first | rfl | exact absurd rfl hf
  · intro r2
    refine ⟨{ r2 with Version := a }, ?_, rfl⟩
    have h3 : Res.map (fun x => ({ r2 with Version := x } : Block)) ((asNum v).bind goAtoi) = Res.ok ({ r2 with Version := a } : Block) := by rw [hx]; rfl
    exact h3

/-- Case round of the Block switch: only the round field changes, and
the assigned value does not depend on the record being built. -/
theorem blockColCase_round (ext : ExtDeps) (r : Block) (v : JsonVal) (b1 : Block)
    (h : applyBlockCol ext r "round" v = Res.ok b1) :
    (∀ f : BField, f ≠ BField.round → blockGet f b1 = blockGet f r) ∧
    (∀ r2 : Block, ∃ b2 : Block, applyBlockCol ext r2 "round" v = Res.ok b2 ∧
      blockGet BField.round b2 = blockGet BField.round b1) := by
  have h2 : Res.map (fun x => ({ r with Round := x } : Block)) ((asNum v).bind goAtoi) = Res.ok b1 := h
  obtain ⟨a, hx, hb⟩ := resMapOk h2
  subst hb
  constructor
  · intro f hf
    cases f <;> first | rfl | exact absurd rfl hf
  · intro r2
    refine ⟨{ r2 with Round := a }, ?_, rfl⟩
    have h3 : Res.map (fun x => ({ r2 with Round := x } : Block)) ((asNum v).bind goAtoi) = Res.ok ({ r2 with Round := a } : Block) := by rw [hx]; rfl
    exact h3

/-- Case nonce of the Block switch: only the nonce field changes, and
the assigned value does not depend on the record being built. -/
theorem blockColCase_nonce (ext : ExtDeps) (r : Block) (v : JsonVal) (b1 : Block)
    (h : applyBlockCol ext r "nonce" v = Res.ok b1) :
    (∀ f : BField, f ≠ BField.nonce → blockGet f b1 = blockGet f r) ∧
    (∀ r2 : Block, ∃ b2 : Block, applyBlockCol ext r2 "nonce" v = Res.ok b2 ∧
      blockGet BField.nonce b2 = blockGet BField.nonce b1) := by
  have h2 : Res.map (fun x => ({ r with Nonce := x } : Block)) (asStr v) = Res.ok b1 := h
  obtain ⟨a, hx, hb⟩ := resMapOk h2
  subst hb
  constructor
  · intro f hf
    cases f <;> first | rfl | exact absurd rfl hf
  · intro r2
    refine ⟨{ r2 with Nonce := a }, ?_, rfl⟩
    have h3 : Res.map (fun x => ({ r2 with Nonce := x } : Block)) (asStr v) = Res.ok ({ r2 with Nonce := a } : Block) := by rw [hx]; rfl
    exact h3

/-- Case voting_period_kind of the Block switch: only the votingPeriodKind field changes, and
the assigned value does not depend on the record being built. -/
theorem blockColCase_votingPeriodKind (ext : ExtDeps) (r : Block) (v : JsonVal) (b1 : Block)
    (h : applyBlockCol ext r "voting_period_kind" v = Res.ok b1) :
    (∀ f : BField, f ≠ BField.votingPeriodKind → blockGet f b1 = blockGet f r) ∧
    (∀ r2 : Block, ∃ b2 : Block, applyBlockCol ext r2 "voting_period_kind" v = Res.ok b2 ∧
      blockGet BField.votingPeriodKind b2 = blockGet BField.votingPeriodKind b1) := by
  have h2 : Res.map (fun x => ({ r with VotingPeriodKind := ext.parseVotingPeriod x } : Block)) (asStr v) = Res.ok b1 := h
  obtain ⟨a, hx, hb⟩ := resMapOk h2
  subst hb
  constructor
  · intro f hf
    cases f <;> first | rfl | exact absurd rfl hf
  · intro r2
    refine ⟨{ r2 with VotingPeriodKind := ext.parseVotingPeriod a }, ?_, rfl⟩
    have h3 : Res.map (fun x => ({ r2 with VotingPeriodKind := ext.parseVotingPeriod x } : Block)) (asStr v) = Res.ok ({ r2 with VotingPeriodKind := ext.parseVotingPeriod a } : Block) := by rw [hx]; rfl
    exact h3

/-- Case baker_id of the Block switch: only the bakerId field changes, and
the assigned value does not depend on the record being built. -/
theorem blockColCase_bakerId (ext : ExtDeps) (r : Block) (v : JsonVal) (b1 : Block)
    (h : applyBlockCol ext r "baker_id" v = Res.ok b1) :
    (∀ f : BField, f ≠ BField.bakerId → blockGet f b1 = blockGet f r) ∧
    (∀ r2 : Block, ∃ b2 : Block, applyBlockCol ext r2 "baker_id" v = Res.ok b2 ∧
      blockGet BField.bakerId b2 = blockGet BField.bakerId b1) := by
  have h2 : Res.map (fun x => ({ r with BakerId := x } : Block)) ((asNum v).bind parseU64) = Res.ok b1 := h
  obtain ⟨a, hx, hb⟩ := resMapOk h2
  subst hb
  constructor
  · intro f hf
    cases f <;> first | rfl | exact absurd rfl hf
  · intro r2
    refine ⟨{ r2 with BakerId := a }, ?_, rfl⟩
    have h3 : Res.map (fun x => ({ r2 with BakerId := x } : Block)) ((asNum v).bind parseU64) = Res.ok ({ r2 with BakerId := a } : Block) := by rw [hx]; rfl
    exact h3

/-- Case baker of the Block switch: only the baker field changes, and
the assigned value does not depend on the record being built. -/
theorem blockColCase_baker (ext : ExtDeps) (r : Block) (v : JsonVal) (b1 : Block)
    (h : applyBlockCol ext r "baker" v = Res.ok b1) :
    (∀ f : BField, f ≠ BField.baker → blockGet f b1 = blockGet f r) ∧
    (∀ r2 : Block, ∃ b2 : Block, applyBlockCol ext r2 "baker" v = Res.ok b2 ∧
      blockGet BField.baker b2 = blockGet BField.baker b1) := by
  have h2 : Res.map (fun x => ({ r with Baker := x } : Block)) ((asStr v).bind ext.parseAddress) = Res.ok b1 := h
  obtain ⟨a, hx, hb⟩ := resMapOk h2
  subst hb
  constructor
  · intro f hf
    cases f <;> first | rfl | exact absurd rfl hf
  · intro r2
    refine ⟨{ r2 with Baker := a }, ?_, rfl⟩
    have h3 : Res.map (fun x => ({ r2 with Baker := x } : Block)) ((asStr v).bind ext.parseAddress) = Res.ok ({ r2 with Baker := a } : Block) := by rw [hx]; rfl
    exact h3

/-- Case proposer_id of the Block switch: only the proposerId field changes, and
the assigned value does not depend on the record being built. -/
theorem blockColCase_proposerId (ext : ExtDeps) (r : Block) (v : JsonVal) (b1 : Block)
    (h : applyBlockCol ext r "proposer_id" v = Res.ok b1) :
    (∀ f : BField, f ≠ BField.proposerId → blockGet f b1 = blockGet f r) ∧
    (∀ r2 : Block, ∃ b2 : Block, applyBlockCol ext r2 "proposer_id" v = Res.ok b2 ∧
      blockGet BField.proposerId b2 = blockGet BField.proposerId b1) := by
  have h2 : Res.map (fun x => ({ r with ProposerId := x } : Block)) ((asNum v).bind parseU64) = Res.ok b1 := h
  obtain ⟨a, hx, hb⟩ := resMapOk h2
  subst hb
  constructor
  · intro f hf
    cases f <;> first | rfl | exact absurd rfl hf
  · intro r2
    refine ⟨{ r2 with ProposerId := a }, ?_, rfl⟩
    have h3 : Res.map (fun x => ({ r2 with ProposerId := x } : Block)) ((asNum v).bind parseU64) = Res.ok ({ r2 with ProposerId := a } : Block) := by rw [hx]; rfl
    exact h3

/-- Case proposer of the Block switch: only the proposer field changes, and
the assigned value does not depend on the record being built. -/
theorem blockColCase_proposer (ext : ExtDeps) (r : Block) (v : JsonVal) (b1 : Block)
    (h : applyBlockCol ext r "proposer" v = Res.ok b1) :
    (∀ f : BField, f ≠ BField.proposer → blockGet f b1 = blockGet f r) ∧
    (∀ r2 : Block, ∃ b2 : Block, applyBlockCol ext r2 "proposer" v = Res.ok b2 ∧
      blockGet BField.proposer b2 = blockGet BField.proposer b1) := by
  have h2 : Res.map (fun x => ({ r with Proposer := x } : Block)) ((asStr v).bind ext.parseAddress) = Res.ok b1 := h
  obtain ⟨a, hx, hb⟩ := resMapOk h2
  subst hb
  constructor
  · intro f hf
    cases f <;> first | rfl | exact absurd rfl hf
  · intro r2
    refine ⟨{ r2 with Proposer := a }, ?_, rfl⟩
    have h3 : Res.map (fun x => ({ r2 with Proposer := x } : Block)) ((asStr v).bind ext.parseAddress) = Res.ok ({ r2 with Proposer := a } : Block) := by rw [hx]; rfl
    exact h3

/-- Case n_endorsed_slots of the Block switch: only the nSlotsEndorsed field changes, and
the assigned value does not depend on the record being built. -/
theorem blockColCase_nEndorsedSlots (ext : ExtDeps) (r : Block) (v : JsonVal) (b1 : Block)
    (h : applyBlockCol ext r "n_endorsed_slots" v = Res.ok b1) :
    (∀ f : BField, f ≠ BField.nSlotsEndorsed → blockGet f b1 = blockGet f r) ∧
    (∀ r2 : Block, ∃ b2 : Block, applyBlockCol ext r2 "n_endorsed_slots" v = Res.ok b2 ∧
      blockGet BField.nSlotsEndorsed b2 = blockGet BField.nSlotsEndorsed b1) := by
  have h2 : Res.map (fun x => ({ r with NSlotsEndorsed := x } : Block)) ((asNum v).bind goAtoi) = Res.ok b1 := h
  obtain ⟨a, hx, hb⟩ := resMapOk h2
  subst hb
  constructor
  · intro f hf
    cases f <;> first | rfl | exact absurd rfl hf
  · intro r2
    refine ⟨{ r2 with NSlotsEndorsed := a }, ?_, rfl⟩
    have h3 : Res.map (fun x => ({ r2 with NSlotsEndorsed := x } : Block)) ((asNum v).bind goAtoi) = Res.ok ({ r2 with NSlotsEndorsed := a } : Block) := by rw [hx]; rfl
    exact h3

/-- Case n_ops_applied of the Block switch: only the nOpsApplied field changes, and
the assigned value does not depend on the record being built. -/
theorem blockColCase_nOpsApplied (ext : ExtDeps) (r : Block) (v : JsonVal) (b1 : Block)
    (h : applyBlockCol ext r "n_ops_applied" v = Res.ok b1) :
    (∀ f : BField, f ≠ BField.nOpsApplied → blockGet f b1 = blockGet f r) ∧
    (∀ r2 : Block, ∃ b2 : Block, applyBlockCol ext r2 "n_ops_applied" v = Res.ok b2 ∧
      blockGet BField.nOpsApplied b2 = blockGet BField.nOpsApplied b1) := by
  have h2 : Res.map (fun x => ({ r with NOpsApplied := x } : Block)) ((asNum v).bind goAtoi) = Res.ok b1 := h
  obtain ⟨a, hx, hb⟩ := resMapOk h2
  subst hb
  constructor
  · intro f hf
    cases f <;> first | rfl | exact absurd rfl hf
  · intro r2
    refine ⟨{ r2 with NOpsApplied := a }, ?_, rfl⟩
    have h3 : Res.map (fun x => ({ r2 with NOpsApplied := x } : Block)) ((asNum v).bind goAtoi) = Res.ok ({ r2 with NOpsApplied := a } : Block) := by rw [hx]; rfl
    exact h3

/-- Case n_ops_failed of the Block switch: only the nOpsFailed field changes, and
the assigned value does not depend on the record being built. -/
theorem blockColCase_nOpsFailed (ext : ExtDeps) (r : Block) (v : JsonVal) (b1 : Block)
    (h : applyBlockCol ext r "n_ops_failed" v = Res.ok b1) :
    (∀ f : BField, f ≠ BField.nOpsFailed → blockGet f b1 = blockGet f r) ∧
    (∀ r2 : Block, ∃ b2 : Block, applyBlockCol ext r2 "n_ops_failed" v = Res.ok b2 ∧
      blockGet BField.nOpsFailed b2 = blockGet BField.nOpsFailed b1) := by
  have h2 : Res.map (fun x => ({ r with NOpsFailed := x } : Block)) ((asNum v).bind goAtoi) = Res.ok b1 := h
  obtain ⟨a, hx, hb⟩ := resMapOk h2
  subst hb
  constructor
  · intro f hf
    cases f <;> first | rfl | exact absurd rfl hf
  · intro r2
    refine ⟨{ r2 with NOpsFailed := a }, ?_, rfl⟩
    have h3 : Res.map (fun x => ({ r2 with NOpsFailed := x } : Block)) ((asNum v).bind goAtoi) = Res.ok ({ r2 with NOpsFailed := a } : Block) := by rw [hx]; rfl
    exact h3

/-- Case n_events of the Block switch: only the nEvents field changes, and
the assigned value does not depend on the record being built. -/
theorem blockColCase_nEvents (ext : ExtDeps) (r : Block) (v : JsonVal) (b1 : Block)
    (h : applyBlockCol ext r "n_events" v = Res.ok b1) :
    (∀ f : BField, f ≠ BField.nEvents → blockGet f b1 = blockGet f r) ∧
    (∀ r2 : Block, ∃ b2 : Block, applyBlockCol ext r2 "n_events" v = Res.ok b2 ∧
      blockGet BField.nEvents b2 = blockGet BField.nEvents b1) := by
  have h2 : Res.map (fun x => ({ r with NEvents := x } : Block)) ((asNum v).bind goAtoi) = Res.ok b1 := h
  obtain ⟨a, hx, hb⟩ := resMapOk h2
  subst hb
  constructor
  · intro f hf
    cases f <;> first | rfl | exact absurd rfl hf
  · intro r2
    refine ⟨{ r2 with NEvents := a }, ?_, rfl⟩
    have h3 : Res.map (fun x => ({ r2 with NEvents := x } : Block)) ((asNum v).bind goAtoi) = Res.ok ({ r2 with NEvents := a } : Block) := by rw [hx]; rfl
    exact h3

/-- Case volume of the Block switch: only the volume field changes, and
the assigned value does not depend on the record being built. -/
theorem blockColCase_volume (ext : ExtDeps) (r : Block) (v : JsonVal) (b1 : Block)
    (h : applyBlockCol ext r "volume" v = Res.ok b1) :
    (∀ f : BField, f ≠ BField.volume → blockGet f b1 = blockGet f r) ∧
    (∀ r2 : Block, ∃ b2 : Block, applyBlockCol ext r2 "volume" v = Res.ok b2 ∧
      blockGet BField.volume b2 = blockGet BField.volume b1) := by
  have h2 : Res.map (fun x => ({ r with Volume := x } : Block)) ((asNum v).bind ext.parseFloat) = Res.ok b1 := h
  obtain ⟨a, hx, hb⟩ := resMapOk h2
  subst hb
  constructor
  · intro f hf
    cases f <;> first | rfl | exact absurd rfl hf
  · intro r2
    refine ⟨{ r2 with Volume := a }, ?_, rfl⟩
    have h3 : Res.map (fun x => ({ r2 with Volume := x } : Block)) ((asNum v).bind ext.parseFloat) = Res.ok ({ r2 with Volume := a } : Block) := by rw [hx]; rfl
    exact h3

/-- Case fee of the Block switch: only the fee field changes, and
the assigned value does not depend on the record being built. -/
theorem blockColCase_fee (ext : ExtDeps) (r : Block) (v : JsonVal) (b1 : Block)
    (h : applyBlockCol ext r "fee" v = Res.ok b1) :
    (∀ f : BField, f ≠ BField.fee → blockGet f b1 = blockGet f r) ∧
    (∀ r2 : Block, ∃ b2 : Block, applyBlockCol ext r2 "fee" v = Res.ok b2 ∧
      blockGet BField.fee b2 = blockGet BField.fee b1) := by
  have h2 : Res.map (fun x => ({ r with Fee := x } : Block)) ((asNum v).bind ext.parseFloat) = Res.ok b1 := h
  obtain ⟨a, hx, hb⟩ := resMapOk h2
  subst hb
  constructor
  · intro f hf
    cases f <;> first | rfl | exact absurd rfl hf
  · intro r2
    refine ⟨{ r2 with Fee := a }, ?_, rfl⟩
    have h3 : Res.map (fun x => ({ r2 with Fee := x } : Block)) ((asNum v).bind ext.parseFloat) = Res.ok ({ r2 with Fee := a } : Block) := by rw [hx]; rfl
    exact h3

/-- Case reward of the Block switch: only the reward field changes, and
the assigned value does not depend on the record being built. -/
theorem blockColCase_reward (ext : ExtDeps) (r : Block) (v : JsonVal) (b1 : Block)
    (h : applyBlockCol ext r "reward" v = Res.ok b1) :
    (∀ f : BField, f ≠ BField.reward → blockGet f b1 = blockGet f r) ∧
    (∀ r2 : Block, ∃ b2 : Block, applyBlockCol ext r2 "reward" v = Res.ok b2 ∧
      blockGet BField.reward b2 = blockGet BField.reward b1) := by
  have h2 : Res.map (fun x => ({ r with Reward := x } : Block)) ((asNum v).bind ext.parseFloat) = Res.ok b1 := h
  obtain ⟨a, hx, hb⟩ := resMapOk h2
  subst hb
  constructor
  · intro f hf
    cases f <;> first | rfl | exact absurd rfl hf
  · intro r2
    refine ⟨{ r2 with Reward := a }, ?_, rfl⟩
    have h3 : Res.map (fun x => ({ r2 with Reward := x } : Block)) ((asNum v).bind ext.parseFloat) = Res.ok ({ r2 with Reward := a } : Block) := by rw [hx]; rfl
    exact h3

/-- Case deposit of the Block switch: only the deposit field changes, and
the assigned value does not depend on the record being built. -/
theorem blockColCase_deposit (ext : ExtDeps) (r : Block) (v : JsonVal) (b1 : Block)
    (h : applyBlockCol ext r "deposit" v = Res.ok b1) :
    (∀ f : BField, f ≠ BField.deposit → blockGet f b1 = blockGet f r) ∧
    (∀ r2 : Block, ∃ b2 : Block, applyBlockCol ext r2 "deposit" v = Res.ok b2 ∧
      blockGet BField.deposit b2 = blockGet BField.deposit b1) := by
  have h2 : Res.map (fun x => ({ r with Deposit := x } : Block)) ((asNum v).bind ext.parseFloat) = Res.ok b1 := h
  obtain ⟨a, hx, hb⟩ := resMapOk h2
  subst hb
  constructor
  · intro f hf
    cases f <;> first | rfl | exact absurd rfl hf
  · intro r2
    refine ⟨{ r2 with Deposit := a }, ?_, rfl⟩
    have h3 : Res.map (fun x => ({ r2 with Deposit := x } : Block)) ((asNum v).bind ext.parseFloat) = Res.ok ({ r2 with Deposit := a } : Block) := by rw [hx]; rfl
    exact h3

/-- Case activated_supply of the Block switch: only the activatedSupply field changes, and
the assigned value does not depend on the record being built. -/
theorem blockColCase_activatedSupply (ext : ExtDeps) (r : Block) (v : JsonVal) (b1 : Block)
    (h : applyBlockCol ext r "activated_supply" v = Res.ok b1) :
    (∀ f : BField, f ≠ BField.activatedSupply → blockGet f b1 = blockGet f r) ∧
    (∀ r2 : Block, ∃ b2 : Block, applyBlockCol ext r2 "activated_supply" v = Res.ok b2 ∧
      blockGet BField.activatedSupply b2 = blockGet BField.activatedSupply b1) := by
  have h2 : Res.map (fun x => ({ r with ActivatedSupply := x } : Block)) ((asNum v).bind ext.parseFloat) = Res.ok b1 := h
  obtain ⟨a, hx, hb⟩ := resMapOk h2
  subst hb
  constructor
  · intro f hf
    cases f <;> first | rfl | exact absurd rfl hf
  · intro r2
    refine ⟨{ r2 with ActivatedSupply := a }, ?_, rfl⟩
    have h3 : Res.map (fun x => ({ r2 with ActivatedSupply := x } : Block)) ((asNum v).bind ext.parseFloat) = Res.ok ({ r2 with ActivatedSupply := a } : Block) := by rw [hx]; rfl
    exact h3

/-- Case minted_supply of the Block switch: only the mintedSupply field changes, and
the assigned value does not depend on the record being built. -/
theorem blockColCase_mintedSupply (ext : ExtDeps) (r : Block) (v : JsonVal) (b1 : Block)
    (h : applyBlockCol ext r "minted_supply" v = Res.ok b1) :
    (∀ f : BField, f ≠ BField.mintedSupply → blockGet f b1 = blockGet f r) ∧
    (∀ r2 : Block, ∃ b2 : Block, applyBlockCol ext r2 "minted_supply" v = Res.ok b2 ∧
      blockGet BField.mintedSupply b2 = blockGet BField.mintedSupply b1) := by
  have h2 : Res.map (fun x => ({ r with MintedSupply := x } : Block)) ((asNum v).bind ext.parseFloat) = Res.ok b1 := h
  obtain ⟨a, hx, hb⟩ := resMapOk h2
  subst hb
  constructor
  · intro f hf
    cases f <;> first | rfl | exact absurd rfl hf
  · intro r2
    refine ⟨{ r2 with MintedSupply := a }, ?_, rfl⟩
    have h3 : Res.map (fun x => ({ r2 with MintedSupply := x } : Block)) ((asNum v).bind ext.parseFloat) = Res.ok ({ r2 with MintedSupply := a } : Block) := by rw [hx]; rfl
    exact h3

/-- Case burned_supply of the Block switch: only the burnedSupply field changes, and
the assigned value does not depend on the record being built. -/
theorem blockColCase_burnedSupply (ext : ExtDeps) (r : Block) (v : JsonVal) (b1 : Block)
    (h : applyBlockCol ext r "burned_supply" v = Res.ok b1) :
    (∀ f : BField, f ≠ BField.burnedSupply → blockGet f b1 = blockGet f r) ∧
    (∀ r2 : Block, ∃ b2 : Block, applyBlockCol ext r2 "burned_supply" v = Res.ok b2 ∧
      blockGet BField.burnedSupply b2 = blockGet BField.burnedSupply b1) := by
  have h2 : Res.map (fun x => ({ r with BurnedSupply := x } : Block)) ((asNum v).bind ext.parseFloat) = Res.ok b1 := h
  obtain ⟨a, hx, hb⟩ := resMapOk h2
  subst hb
  constructor
  · intro f hf
    cases f <;> first | rfl | exact absurd rfl hf
  · intro r2
    refine ⟨{ r2 with BurnedSupply := a }, ?_, rfl⟩
    have h3 : Res.map (fun x => ({ r2 with BurnedSupply := x } : Block)) ((asNum v).bind ext.parseFloat) = Res.ok ({ r2 with BurnedSupply := a } : Block) := by rw [hx]; rfl
    exact h3

/-- Case n_accounts of the Block switch: only the seenAccounts field changes, and
the assigned value does not depend on the record being built. -/
theorem blockColCase_nAccounts (ext : ExtDeps) (r : Block) (v : JsonVal) (b1 : Block)
    (h : applyBlockCol ext r "n_accounts" v = Res.ok b1) :
    (∀ f : BField, f ≠ BField.seenAccounts → blockGet f b1 = blockGet f r) ∧
    (∀ r2 : Block, ∃ b2 : Block, applyBlockCol ext r2 "n_accounts" v = Res.ok b2 ∧
      blockGet BField.seenAccounts b2 = blockGet BField.seenAccounts b1) := by
  have h2 : Res.map (fun x => ({ r with SeenAccounts := x } : Block)) ((asNum v).bind goAtoi) = Res.ok b1 := h
  obtain ⟨a, hx, hb⟩ := resMapOk h2
  subst hb
  constructor
  · intro f hf
    cases f <;> first | rfl | exact absurd rfl hf
  · intro r2
    refine ⟨{ r2 with SeenAccounts := a }, ?_, rfl⟩
    have h3 : Res.map (fun x => ({ r2 with SeenAccounts := x } : Block)) ((asNum v).bind goAtoi) = Res.ok ({ r2 with SeenAccounts := a } : Block) := by rw [hx]; rfl
    exact h3

/-- Case n_new_accounts of the Block switch: only the newAccounts field changes, and
the assigned value does not depend on the record being built. -/
theorem blockColCase_nNewAccounts (ext : ExtDeps) (r : Block) (v : JsonVal) (b1 : Block)
    (h : applyBlockCol ext r "n_new_accounts" v = Res.ok b1) :
    (∀ f : BField, f ≠ BField.newAccounts → blockGet f b1 = blockGet f r) ∧
    (∀ r2 : Block, ∃ b2 : Block, applyBlockCol ext r2 "n_new_accounts" v = Res.ok b2 ∧
      blockGet BField.newAccounts b2 = blockGet BField.newAccounts b1) := by
  have h2 : Res.map (fun x => ({ r with NewAccounts := x } : Block)) ((asNum v).bind goAtoi) = Res.ok b1 := h
  obtain ⟨a, hx, hb⟩ := resMapOk h2
  subst hb
  constructor
  · intro f hf
    cases f <;> first | rfl | exact absurd rfl hf
  · intro r2
    refine ⟨{ r2 with NewAccounts := a }, ?_, rfl⟩
    have h3 : Res.map (fun x => ({ r2 with NewAccounts := x } : Block)) ((asNum v).bind goAtoi) = Res.ok ({ r2 with NewAccounts := a } : Block) := by rw [hx]; rfl
    exact h3

/-- Case n_new_contracts of the Block switch: only the newContracts field changes, and
the assigned value does not depend on the record being built. -/
theorem blockColCase_nNewContracts (ext : ExtDeps) (r : Block) (v : JsonVal) (b1 : Block)
    (h : applyBlockCol ext r "n_new_contracts" v = Res.ok b1) :
    (∀ f : BField, f ≠ BField.newContracts → blockGet f b1 = blockGet f r) ∧
    (∀ r2 : Block, ∃ b2 : Block, applyBlockCol ext r2 "n_new_contracts" v = Res.ok b2 ∧
      blockGet BField.newContracts b2 = blockGet BField.newContracts b1) := by
  have h2 : Res.map (fun x => ({ r with NewContracts := x } : Block)) ((asNum v).bind goAtoi) = Res.ok b1 := h
  obtain ⟨a, hx, hb⟩ := resMapOk h2
  subst hb
  constructor
  · intro f hf
    cases f <;> first | rfl | exact absurd rfl hf
  · intro r2
    refine ⟨{ r2 with NewContracts := a }, ?_, rfl⟩
    have h3 : Res.map (fun x => ({ r2 with NewContracts := x } : Block)) ((asNum v).bind goAtoi) = Res.ok ({ r2 with NewContracts := a } : Block) := by rw [hx]; rfl
    exact h3

/-- Case n_cleared_accounts of the Block switch: only the clearedAccounts field changes, and
the assigned value does not depend on the record being built. -/
theorem blockColCase_nClearedAccounts (ext : ExtDeps) (r : Block) (v : JsonVal) (b1 : Block)
    (h : applyBlockCol ext r "n_cleared_accounts" v = Res.ok b1) :
    (∀ f : BField, f ≠ BField.clearedAccounts → blockGet f b1 = blockGet f r) ∧
    (∀ r2 : Block, ∃ b2 : Block, applyBlockCol ext r2 "n_cleared_accounts" v = Res.ok b2 ∧
      blockGet BField.clearedAccounts b2 = blockGet BField.clearedAccounts b1) := by
  have h2 : Res.map (fun x => ({ r with ClearedAccounts := x } : Block)) ((asNum v).bind goAtoi) = Res.ok b1 := h
  obtain ⟨a, hx, hb⟩ := resMapOk h2
  subst hb
  constructor
  · intro f hf
    cases f <;> first | rfl | exact absurd rfl hf
  · intro r2
    refine ⟨{ r2 with ClearedAccounts := a }, ?_, rfl⟩
    have h3 : Res.map (fun x => ({ r2 with ClearedAccounts := x } : Block)) ((asNum v).bind goAtoi) = Res.ok ({ r2 with ClearedAccounts := a } : Block) := by rw [hx]; rfl
    exact h3

/-- Case n_funded_accounts of the Block switch: only the fundedAccounts field changes, and
the assigned value does not depend on the record being built. -/
theorem blockColCase_nFundedAccounts (ext : ExtDeps) (r : Block) (v : JsonVal) (b1 : Block)
    (h : applyBlockCol ext r "n_funded_accounts" v = Res.ok b1) :
    (∀ f : BField, f ≠ BField.fundedAccounts → blockGet f b1 = blockGet f r) ∧
    (∀ r2 : Block, ∃ b2 : Block, applyBlockCol ext r2 "n_funded_accounts" v = Res.ok b2 ∧
      blockGet BField.fundedAccounts b2 = blockGet BField.fundedAccounts b1) := by
  have h2 : Res.map (fun x => ({ r with FundedAccounts := x } : Block)) ((asNum v).bind goAtoi) = Res.ok b1 := h
  obtain ⟨a, hx, hb⟩ := resMapOk h2
  subst hb
  constructor
  · intro f hf
    cases f <;> first | rfl | exact absurd rfl hf
  · intro r2
    refine ⟨{ r2 with FundedAccounts := a }, ?_, rfl⟩
    have h3 : Res.map (fun x => ({ r2 with FundedAccounts := x } : Block)) ((asNum v).bind goAtoi) = Res.ok ({ r2 with FundedAccounts := a } : Block) := by rw [hx]; rfl
    exact h3

/-- Case gas_limit of the Block switch: only the gasLimit field changes, and
the assigned value does not depend on the record being built. -/
theorem blockColCase_gasLimit (ext : ExtDeps) (r : Block) (v : JsonVal) (b1 : Block)
    (h : applyBlockCol ext r "gas_limit" v = Res.ok b1) :
    (∀ f : BField, f ≠ BField.gasLimit → blockGet f b1 = blockGet f r) ∧
    (∀ r2 : Block, ∃ b2 : Block, applyBlockCol ext r2 "gas_limit" v = Res.ok b2 ∧
      blockGet BField.gasLimit b2 = blockGet BField.gasLimit b1) := by
  have h2 : Res.map (fun x => ({ r with GasLimit := x } : Block)) ((asNum v).bind parseI64) = Res.ok b1 := h
  obtain ⟨a, hx, hb⟩ := resMapOk h2
  subst hb
  constructor
  · intro f hf
    cases f <;> first | rfl | exact absurd rfl hf
  · intro r2
    refine ⟨{ r2 with GasLimit := a }, ?_, rfl⟩
    have h3 : Res.map (fun x => ({ r2 with GasLimit := x } : Block)) ((asNum v).bind parseI64) = Res.ok ({ r2 with GasLimit := a } : Block) := by rw [hx]; rfl
    exact h3

/-- Case gas_used of the Block switch: only the gasUsed field changes, and
the assigned value does not depend on the record being built. -/
theorem blockColCase_gasUsed (ext : ExtDeps) (r : Block) (v : JsonVal) (b1 : Block)
    (h : applyBlockCol ext r "gas_used" v = Res.ok b1) :
    (∀ f : BField, f ≠ BField.gasUsed → blockGet f b1 = blockGet f r) ∧
    (∀ r2 : Block, ∃ b2 : Block, applyBlockCol ext r2 "gas_used" v = Res.ok b2 ∧
      blockGet BField.gasUsed b2 = blockGet BField.gasUsed b1) := by
  have h2 : Res.map (fun x => ({ r with GasUsed := x } : Block)) ((asNum v).bind parseI64) = Res.ok b1 := h
  obtain ⟨a, hx, hb⟩ := resMapOk h2
  subst hb
  constructor
  · intro f hf
    cases f <;> first | rfl | exact absurd rfl hf
  · intro r2
    refine ⟨{ r2 with GasUsed := a }, ?_, rfl⟩
    have h3 : Res.map (fun x => ({ r2 with GasUsed := x } : Block)) ((asNum v).bind parseI64) = Res.ok ({ r2 with GasUsed := a } : Block) := by rw [hx]; rfl
    exact h3

/-- Case storage_paid of the Block switch: only the storagePaid field changes, and
the assigned value does not depend on the record being built. -/
theorem blockColCase_storagePaid (ext : ExtDeps) (r : Block) (v : JsonVal) (b1 : Block)
    (h : applyBlockCol ext r "storage_paid" v = Res.ok b1) :
    (∀ f : BField, f ≠ BField.storagePaid → blockGet f b1 = blockGet f r) ∧
    (∀ r2 : Block, ∃ b2 : Block, applyBlockCol ext r2 "storage_paid" v = Res.ok b2 ∧
      blockGet BField.storagePaid b2 = blockGet BField.storagePaid b1) := by
  have h2 : Res.map (fun x => ({ r with StoragePaid := x } : Block)) ((asNum v).bind parseI64) = Res.ok b1 := h
  obtain ⟨a, hx, hb⟩ := resMapOk h2
  subst hb
  constructor
  · intro f hf
    cases f <;> first | rfl | exact absurd rfl hf
  · intro r2
    refine ⟨{ r2 with StoragePaid := a }, ?_, rfl⟩
    have h3 : Res.map (fun x => ({ r2 with StoragePaid := x } : Block)) ((asNum v).bind parseI64) = Res.ok ({ r2 with StoragePaid := a } : Block) := by rw [hx]; rfl
    exact h3

/-- Case pct_account_reuse of the Block switch: only the pctAccountReuse field changes, and
the assigned value does not depend on the record being built. -/
theorem blockColCase_pctAccountReuse (ext : ExtDeps) (r : Block) (v : JsonVal) (b1 : Block)
    (h : applyBlockCol ext r "pct_account_reuse" v = Res.ok b1) :
    (∀ f : BField, f ≠ BField.pctAccountReuse → blockGet f b1 = blockGet f r) ∧
    (∀ r2 : Block, ∃ b2 : Block, applyBlockCol ext r2 "pct_account_reuse" v = Res.ok b2 ∧
      blockGet BField.pctAccountReuse b2 = blockGet BField.pctAccountReuse b1) := by
  have h2 : Res.map (fun x => ({ r with PctAccountReuse := x } : Block)) ((asNum v).bind ext.parseFloat) = Res.ok b1 := h
  obtain ⟨a, hx, hb⟩ := resMapOk h2
  subst hb
  constructor
  · intro f hf
    cases f <;> first | rfl | exact absurd rfl hf
  · intro r2
    refine ⟨{ r2 with PctAccountReuse := a }, ?_, rfl⟩
    have h3 : Res.map (fun x => ({ r2 with PctAccountReuse := x } : Block)) ((asNum v).bind ext.parseFloat) = Res.ok ({ r2 with PctAccountReuse := a } : Block) := by rw [hx]; rfl
    exact h3

/-- Case lb_esc_vote of the Block switch: only the lbEscVote field changes, and
the assigned value does not depend on the record being built. -/
theorem blockColCase_lbEscVote (ext : ExtDeps) (r : Block) (v : JsonVal) (b1 : Block)
    (h : applyBlockCol ext r "lb_esc_vote" v = Res.ok b1) :
    (∀ f : BField, f ≠ BField.lbEscVote → blockGet f b1 = blockGet f r) ∧
    (∀ r2 : Block, ∃ b2 : Block, applyBlockCol ext r2 "lb_esc_vote" v = Res.ok b2 ∧
      blockGet BField.lbEscVote b2 = blockGet BField.lbEscVote b1) := by
  have h2 : Res.map (fun x => ({ r with LbEscapeVote := x } : Block)) ((asNum v).bind parseBoolG) = Res.ok b1 := h
  obtain ⟨a, hx, hb⟩ := resMapOk h2
  subst hb
  constructor
  · intro f hf
    cases f <;> first | rfl | exact absurd rfl hf
  · intro r2
    refine ⟨{ r2 with LbEscapeVote := a }, ?_, rfl⟩
    have h3 : Res.map (fun x => ({ r2 with LbEscapeVote := x } : Block)) ((asNum v).bind parseBoolG) = Res.ok ({ r2 with LbEscapeVote := a } : Block) := by rw [hx]; rfl
    exact h3

/-- Case lb_esc_ema of the Block switch: only the lbEscEma field changes, and
the assigned value does not depend on the record being built. -/
theorem blockColCase_lbEscEma (ext : ExtDeps) (r : Block) (v : JsonVal) (b1 : Block)
    (h : applyBlockCol ext r "lb_esc_ema" v = Res.ok b1) :
    (∀ f : BField, f ≠ BField.lbEscEma → blockGet f b1 = blockGet f r) ∧
    (∀ r2 : Block, ∃ b2 : Block, applyBlockCol ext r2 "lb_esc_ema" v = Res.ok b2 ∧
      blockGet BField.lbEscEma b2 = blockGet BField.lbEscEma b1) := by
  have h2 : Res.map (fun x => ({ r with LbEscapeEma := x } : Block)) ((asNum v).bind parseI64) = Res.ok b1 := h
  obtain ⟨a, hx, hb⟩ := resMapOk h2
  subst hb
  constructor
  · intro f hf
    cases f <;> first | rfl | exact absurd rfl hf
  · intro r2
    refine ⟨{ r2 with LbEscapeEma := a }, ?_, rfl⟩
    have h3 : Res.map (fun x => ({ r2 with LbEscapeEma := x } : Block)) ((asNum v).bind parseI64) = Res.ok ({ r2 with LbEscapeEma := a } : Block) := by rw [hx]; rfl
    exact h3

/-- Case protocol of the Block switch: only the protocol field changes, and
the assigned value does not depend on the record being built. -/
theorem blockColCase_protocol (ext : ExtDeps) (r : Block) (v : JsonVal) (b1 : Block)
    (h : applyBlockCol ext r "protocol" v = Res.ok b1) :
    (∀ f : BField, f ≠ BField.protocol → blockGet f b1 = blockGet f r) ∧
    (∀ r2 : Block, ∃ b2 : Block, applyBlockCol ext r2 "protocol" v = Res.ok b2 ∧
      blockGet BField.protocol b2 = blockGet BField.protocol b1) := by
  have h2 : Res.map (fun x => ({ r with Protocol := x } : Block)) ((asStr v).bind ext.parseProtocolHash) = Res.ok b1 := h
  obtain ⟨a, hx, hb⟩ := resMapOk h2
  subst hb
  constructor
  · intro f hf
    cases f <;> first | rfl | exact absurd rfl hf
  · intro r2
    refine ⟨{ r2 with Protocol := a }, ?_, rfl⟩
    have h3 : Res.map (fun x => ({ r2 with Protocol := x } : Block)) ((asStr v).bind ext.parseProtocolHash) = Res.ok ({ r2 with Protocol := a } : Block) := by rw [hx]; rfl
    exact h3

/-- Footprint of one recognized Block column: a successful dispatch
changes only the column's field, and the assigned value is independent
of the record being built. -/
theorem applyBlockColOk (ext : ExtDeps) (k : BCol) (r : Block) (v : JsonVal) (b1 : Block)
    (h : applyBlockCol ext r k.name v = Res.ok b1) :
    (∀ f : BField, f ≠ k.field → blockGet f b1 = blockGet f r) ∧
    (∀ r2 : Block, ∃ b2 : Block, applyBlockCol ext r2 k.name v = Res.ok b2 ∧
      blockGet k.field b2 = blockGet k.field b1) := by
  cases k with
  | rowId => exact blockColCase_rowId ext r v b1 h
  | hash => exact blockColCase_hash ext r v b1 h
  | predecessor => exact blockColCase_predecessor ext r v b1 h
  | time => exact blockColCase_time ext r v b1 h
  | height => exact blockColCase_height ext r v b1 h
  | cycle => exact blockColCase_cycle ext r v b1 h
  | isCycleSnapshot => exact blockColCase_isCycleSnapshot ext r v b1 h
  | solvetime => exact blockColCase_solvetime ext r v b1 h
  | version => exact blockColCase_version ext r v b1 h
  | round => exact blockColCase_round ext r v b1 h
  | nonce => exact blockColCase_nonce ext r v b1 h
  | votingPeriodKind => exact blockColCase_votingPeriodKind ext r v b1 h
  | bakerId => exact blockColCase_bakerId ext r v b1 h
  | baker => exact blockColCase_baker ext r v b1 h
  | proposerId => exact blockColCase_proposerId ext r v b1 h
  | proposer => exact blockColCase_proposer ext r v b1 h
  | nEndorsedSlots => exact blockColCase_nEndorsedSlots ext r v b1 h
  | nOpsApplied => exact blockColCase_nOpsApplied ext r v b1 h
  | nOpsFailed => exact blockColCase_nOpsFailed ext r v b1 h
  | nEvents => exact blockColCase_nEvents ext r v b1 h
  | volume => exact blockColCase_volume ext r v b1 h
  | fee => exact blockColCase_fee ext r v b1 h
  | reward => exact blockColCase_reward ext r v b1 h
  | deposit => exact blockColCase_deposit ext r v b1 h
  | activatedSupply => exact blockColCase_activatedSupply ext r v b1 h
  | mintedSupply => exact blockColCase_mintedSupply ext r v b1 h
  | burnedSupply => exact blockColCase_burnedSupply ext r v b1 h
  | nAccounts => exact blockColCase_nAccounts ext r v b1 h
  | nNewAccounts => exact blockColCase_nNewAccounts ext r v b1 h
  | nNewContracts => exact blockColCase_nNewContracts ext r v b1 h
  | nClearedAccounts => exact blockColCase_nClearedAccounts ext r v b1 h
  | nFundedAccounts => exact blockColCase_nFundedAccounts ext r v b1 h
  | gasLimit => exact blockColCase_gasLimit ext r v b1 h
  | gasUsed => exact blockColCase_gasUsed ext r v b1 h
  | storagePaid => exact blockColCase_storagePaid ext r v b1 h
  | pctAccountReuse => exact blockColCase_pctAccountReuse ext r v b1 h
  | lbEscVote => exact blockColCase_lbEscVote ext r v b1 h
  | lbEscEma => exact blockColCase_lbEscEma ext r v b1 h
  | protocol => exact blockColCase_protocol ext r v b1 h

theorem listGetSomeLt {α : Type} : ∀ (l : List α) (n : Nat) (x : α), listGet? l n = some x → n < l.length := by
  intro l
  induction l with
  | nil => intro n x h; simp [listGet?] at h
  | cons a as ih =>
    intro n x h
    cases n with
    | zero => simp
    | succ m =>
      have := ih m x h
      simp
      omega

theorem briefLoopG_cons_none {σ : Type} (apply : σ → String → JsonVal → Res σ) (unpacked : List JsonVal) (c : String) (cs : List String) (i : Nat) (acc : σ) (hg : listGet? unpacked i = none) :
    briefLoopG apply unpacked (c :: cs) i acc = Res.goPanic PanicKind.indexOutOfRange := by
  unfold briefLoopG
  rw [hg]

theorem briefLoopG_cons_null {σ : Type} (apply : σ → String → JsonVal → Res σ) (unpacked : List JsonVal) (c : String) (cs : List String) (i : Nat) (acc : σ) (f : JsonVal) (hg : listGet? unpacked i = some f) (hn : f.isNull = true) :
    briefLoopG apply unpacked (c :: cs) i acc = briefLoopG apply unpacked cs (i + 1) acc := by
  conv_lhs => unfold briefLoopG
  simp [hg, hn]

theorem briefLoopG_cons_app {σ : Type} (apply : σ → String → JsonVal → Res σ) (unpacked : List JsonVal) (c : String) (cs : List String) (i : Nat) (acc : σ) (f : JsonVal) (hg : listGet? unpacked i = some f) (hn : f.isNull = false) :
    briefLoopG apply unpacked (c :: cs) i acc =
      (match apply acc c f with
       | .ok acc2 => briefLoopG apply unpacked cs (i + 1) acc2
       | .err e => .err e
       | .goPanic p => .goPanic p) := by
  conv_lhs => unfold briefLoopG
  simp [hg, hn]

theorem briefLoopG_short {σ : Type} (apply : σ → String → JsonVal → Res σ) (unpacked : List JsonVal) :
    ∀ (cols : List String) (i : Nat) (acc : σ), i ≤ unpacked.length → unpacked.length < i + cols.length →
    ∀ r, briefLoopG apply unpacked cols i acc ≠ Res.ok r := by
  intro cols
  induction cols with
  | nil =>
    intro i acc h1 h2 r
    simp at h2
    omega
  | cons c cs ih =>
    intro i acc h1 h2 r
    cases hg : listGet? unpacked i with
    | none =>
      rw [briefLoopG_cons_none apply unpacked c cs i acc hg]
      intro hcontra
      cases hcontra
    | some f =>
      have hlt := listGetSomeLt unpacked i f hg
      cases hn : f.isNull with
      | true =>
        rw [briefLoopG_cons_null apply unpacked c cs i acc f hg hn]
        exact ih (i + 1) acc (by omega) (by simp at h2 ⊢; omega) r
      | false =>
        rw [briefLoopG_cons_app apply unpacked c cs i acc f hg hn]
        cases happ : apply acc c f with
        | ok acc2 => exact ih (i + 1) acc2 (by omega) (by simp at h2 ⊢; omega) r
        | err e => intro hcontra; cases hcontra
        | goPanic p => intro hcontra; cases hcontra

theorem briefLoopG_allnull {σ : Type} (apply : σ → String → JsonVal → Res σ) (unpacked : List JsonVal) :
    ∀ (cols : List String) (i : Nat) (acc : σ),
    (∀ j, j < cols.length → listGet? unpacked (i + j) = some JsonVal.null) →
    briefLoopG apply unpacked cols i acc = Res.ok acc := by
  intro cols
  induction cols with
  | nil => intro i acc _; rfl
  | cons c cs ih =>
    intro i acc h
    have h0 : listGet? unpacked i = some JsonVal.null := by
      have := h 0 (by simp)
      simpa using this
    rw [briefLoopG_cons_null apply unpacked c cs i acc JsonVal.null h0 rfl]
    apply ih
    intro j hj
    have := h (j + 1) (by simp; omega)
    rw [show i + 1 + j = i + (j + 1) by omega]
    exact this

theorem blockLoopFrame (ext : ExtDeps) (unpacked : List JsonVal) :
    ∀ (ks : List BCol) (i : Nat) (acc r : Block),
    briefLoopG (applyBlockCol ext) unpacked (ks.map BCol.name) i acc = Res.ok r →
    ∀ f : BField, (∀ k ∈ ks, k.field ≠ f) → blockGet f r = blockGet f acc := by
  intro ks
  induction ks with
  | nil =>
    intro i acc r h f _
    cases h
    rfl
  | cons k ks ih =>
    intro i acc r h f hf
    rw [List.map_cons] at h
    cases hg : listGet? unpacked i with
    | none =>
      rw [briefLoopG_cons_none (applyBlockCol ext) unpacked k.name (ks.map BCol.name) i acc hg] at h
      cases h
    | some f0 =>
      cases hn : f0.isNull with
      | true =>
        rw [briefLoopG_cons_null (applyBlockCol ext) unpacked k.name (ks.map BCol.name) i acc f0 hg hn] at h
        exact ih (i + 1) acc r h f (fun k2 hk2 => hf k2 (List.mem_cons_of_mem _ hk2))
      | false =>
        rw [briefLoopG_cons_app (applyBlockCol ext) unpacked k.name (ks.map BCol.name) i acc f0 hg hn] at h
        cases happ : applyBlockCol ext acc k.name f0 with
        | ok acc2 =>
          rw [happ] at h
          have hstep := (applyBlockColOk ext k acc f0 acc2 happ).1 f (fun heq => hf k (List.mem_cons_self k ks) heq.symm)
          have hrec := ih (i + 1) acc2 r h f (fun k2 hk2 => hf k2 (List.mem_cons_of_mem _ hk2))
          rw [hrec, hstep]
        | err e => rw [happ] at h; cases h
        | goPanic p => rw [happ] at h; cases h

theorem blockLoopNullSkip (ext : ExtDeps) (unpacked : List JsonVal) :
    ∀ (ks : List BCol) (i : Nat) (acc r : Block),
    briefLoopG (applyBlockCol ext) unpacked (ks.map BCol.name) i acc = Res.ok r →
    (ks.map BCol.field).Nodup →
    ∀ j (hj : j < ks.length), listGet? unpacked (i + j) = some JsonVal.null →
    blockGet (ks[j].field) r = blockGet (ks[j].field) acc := by
  intro ks
  induction ks with
  | nil =>
    intro i acc r h hnd j hj
    simp at hj
  | cons k ks ih =>
    intro i acc r h hnd j hj hnull
    rw [List.map_cons, List.nodup_cons] at hnd
    rw [List.map_cons] at h
    cases j with
    | zero =>
      simp only [Nat.add_zero] at hnull
      rw [briefLoopG_cons_null (applyBlockCol ext) unpacked k.name (ks.map BCol.name) i acc JsonVal.null hnull rfl] at h
      simp only [List.getElem_cons_zero]
      exact blockLoopFrame ext unpacked ks (i + 1) acc r h k.field
        (fun k2 hk2 => fun heq => hnd.1 (heq ▸ List.mem_map_of_mem BCol.field hk2))
    | succ m =>
      have hj2 : m < ks.length := by simpa using hj
      simp only [List.getElem_cons_succ]
      cases hg : listGet? unpacked i with
      | none =>
        rw [briefLoopG_cons_none (applyBlockCol ext) unpacked k.name (ks.map BCol.name) i acc hg] at h
        cases h
      | some f0 =>
        cases hn : f0.isNull with
        | true =>
          rw [briefLoopG_cons_null (applyBlockCol ext) unpacked k.name (ks.map BCol.name) i acc f0 hg hn] at h
          exact ih (i + 1) acc r h hnd.2 m hj2 (by rw [show i + 1 + m = i + (m + 1) by omega]; exact hnull)
        | false =>
          rw [briefLoopG_cons_app (applyBlockCol ext) unpacked k.name (ks.map BCol.name) i acc f0 hg hn] at h
          cases happ : applyBlockCol ext acc k.name f0 with
          | ok acc2 =>
            rw [happ] at h
            have hrec := ih (i + 1) acc2 r h hnd.2 m hj2 (by rw [show i + 1 + m = i + (m + 1) by omega]; exact hnull)
            have hne : ks[m].field ≠ k.field := by
              intro heq
              exact hnd.1 (heq ▸ List.mem_map_of_mem BCol.field (List.getElem_mem hj2))
            have hstep := (applyBlockColOk ext k acc f0 acc2 happ).1 ks[m].field hne
            rw [hrec, hstep]
          | err e => rw [happ] at h; cases h
          | goPanic p => rw [happ] at h; cases h

theorem blockLoopPop (ext : ExtDeps) (unpacked : List JsonVal) :
    ∀ (ks : List BCol) (i : Nat) (acc r : Block),
    briefLoopG (applyBlockCol ext) unpacked (ks.map BCol.name) i acc = Res.ok r →
    (ks.map BCol.field).Nodup →
    ∀ j (hj : j < ks.length) (f0 : JsonVal), listGet? unpacked (i + j) = some f0 → f0.isNull = false →
    ∃ b0 : Block, applyBlockCol ext blockDefault (ks[j]).name f0 = Res.ok b0 ∧
      blockGet (ks[j].field) r = blockGet (ks[j].field) b0 := by
  intro ks
  induction ks with
  | nil =>
    intro i acc r h hnd j hj
    simp at hj
  | cons k ks ih =>
    intro i acc r h hnd j hj f0 hget hnn
    rw [List.map_cons, List.nodup_cons] at hnd
    rw [List.map_cons] at h
    cases j with
    | zero =>
      simp only [Nat.add_zero] at hget
      rw [briefLoopG_cons_app (applyBlockCol ext) unpacked k.name (ks.map BCol.name) i acc f0 hget hnn] at h
      cases happ : applyBlockCol ext acc k.name f0 with
      | ok acc2 =>
        rw [happ] at h
        obtain ⟨b0, hb0, hval⟩ := (applyBlockColOk ext k acc f0 acc2 happ).2 blockDefault
        have hfr := blockLoopFrame ext unpacked ks (i + 1) acc2 r h k.field
          (fun k2 hk2 => fun heq => hnd.1 (heq ▸ List.mem_map_of_mem BCol.field hk2))
        simp only [List.getElem_cons_zero]
        exact ⟨b0, hb0, by rw [hfr, ← hval]⟩
      | err e => rw [happ] at h; cases h
      | goPanic p => rw [happ] at h; cases h
    | succ m =>
      have hj2 : m < ks.length := by simpa using hj
      simp only [List.getElem_cons_succ]
      cases hg : listGet? unpacked i with
      | none =>
        rw [briefLoopG_cons_none (applyBlockCol ext) unpacked k.name (ks.map BCol.name) i acc hg] at h
        cases h
      | some f1 =>
        cases hn : f1.isNull with
        | true =>
          rw [briefLoopG_cons_null (applyBlockCol ext) unpacked k.name (ks.map BCol.name) i acc f1 hg hn] at h
          exact ih (i + 1) acc r h hnd.2 m hj2 f0 (by rw [show i + 1 + m = i + (m + 1) by omega]; exact hget) hnn
        | false =>
          rw [briefLoopG_cons_app (applyBlockCol ext) unpacked k.name (ks.map BCol.name) i acc f1 hg hn] at h
          cases happ : applyBlockCol ext acc k.name f1 with
          | ok acc2 =>
            rw [happ] at h
            exact ih (i + 1) acc2 r h hnd.2 m hj2 f0 (by rw [show i + 1 + m = i + (m + 1) by omega]; exact hget) hnn
          | err e => rw [happ] at h; cases h
          | goPanic p => rw [happ] at h; cases h

theorem bColFieldInj : Function.Injective BCol.field := by decide

theorem listGetReplicate {α : Type} (x : α) : ∀ (n j : Nat), j < n → listGet? (List.replicate n x) j = some x := by
  intro n
  induction n with
  | zero => intro j hj; omega
  | succ m ih =>
    intro j hj
    cases j with
    | zero => rfl
    | succ i => exact ih i (by omega)

/-- C1 counterexample: a two-column Block decode of a one-element array
does not return an error: it panics with index out of range. -/
theorem c1_counterexample :
    blockUnmarshalJSONBrief extTest ["row_id", "height"] [JsonVal.num "1"] = Res.goPanic PanicKind.indexOutOfRange ∧
    (blockUnmarshalJSONBrief extTest ["row_id", "height"] [JsonVal.num "1"]).isErr = false := by
  exact ⟨rfl, rfl⟩

/-- C1 amended: for both cited brief decoders, an array shorter than the
column list never decodes successfully and never changes the receiver:
the loop reaches the missing index and panics unless an earlier element
already made it return an error; a missing element is never treated as
an explicit null. -/
theorem c1_short_array (ext : ExtDeps) (b : Block) (o : Op) (unpacked upk2 : List JsonVal)
    (hb : unpacked.length < b.columns.length) (ho : upk2.length < o.columns.length) :
    ((blockBriefMethod ext b unpacked).1 = b ∧ ∀ r, blockUnmarshalJSONBrief ext b.columns unpacked ≠ Res.ok r)
    ∧ ((opBriefMethod ext o upk2).1 = o ∧ ∀ r, opUnmarshalJSONBrief ext o upk2 ≠ Res.ok r) := by
  have hblock : ∀ r, blockUnmarshalJSONBrief ext b.columns unpacked ≠ Res.ok r :=
    briefLoopG_short (applyBlockCol ext) unpacked b.columns 0 blockDefault (by omega) (by omega)
  have hop : ∀ r, opUnmarshalJSONBrief ext o upk2 ≠ Res.ok r :=
    briefLoopG_short (applyOpCol ext o) upk2 o.columns 0 opDefault (by omega) (by omega)
  refine ⟨⟨?_, hblock⟩, ⟨?_, hop⟩⟩
  · unfold blockBriefMethod
    cases hres : blockUnmarshalJSONBrief ext b.columns unpacked with
    | ok r => exact absurd hres (hblock r)
    | err e => rfl
    | goPanic p => rfl
  · unfold opBriefMethod
    cases hres : opUnmarshalJSONBrief ext o upk2 with
    | ok r => exact absurd hres (hop r)
    | err e => rfl
    | goPanic p => rfl

/-- C1 witness. -/
theorem c1_short_array_witness :
    ((blockBriefMethod extTest { blockDefault with columns := ["row_id", "height"] } [JsonVal.num "1"]).1 =
      { blockDefault with columns := ["row_id", "height"] }) := by
  have h := c1_short_array extTest { blockDefault with columns := ["row_id", "height"] }
    { opDefault with columns := ["row_id"] } [JsonVal.num "1"] []
    (by decide) (by decide)
  exact h.1.1

/-- C10: both cited brief decoders build the row in a fresh local record
and assign it to the receiver only on full success, so a decode that
returns an error leaves the receiver exactly as it was. -/
theorem c10_receiver_unchanged (ext : ExtDeps) (b : Block) (o : Op) (unpacked upk2 : List JsonVal) (e e2 : Err) :
    ((blockBriefMethod ext b unpacked).2 = Res.err e → (blockBriefMethod ext b unpacked).1 = b)
    ∧ ((opBriefMethod ext o upk2).2 = Res.err e2 → (opBriefMethod ext o upk2).1 = o) := by
  constructor
  · intro hsnd
    unfold blockBriefMethod at hsnd ⊢
    cases hres : blockUnmarshalJSONBrief ext b.columns unpacked with
    | ok r => rw [hres] at hsnd; cases hsnd
    | err e3 => rfl
    | goPanic p => rfl
  · intro hsnd
    unfold opBriefMethod at hsnd ⊢
    cases hres : opUnmarshalJSONBrief ext o upk2 with
    | ok r => rw [hres] at hsnd; cases hsnd
    | err e3 => rfl
    | goPanic p => rfl

/-- C10 witness: a malformed row_id makes both decoders return an error
and leave the receiver untouched. -/
theorem c10_witness :
    (blockBriefMethod extTest { blockDefault with columns := ["row_id"] } [JsonVal.num "x"]).1 =
      { blockDefault with columns := ["row_id"] } ∧
    (opBriefMethod extTest { opDefault with columns := ["row_id"] } [JsonVal.num "x"]).1 =
      { opDefault with columns := ["row_id"] } := by
  have h := c10_receiver_unchanged extTest
    { blockDefault with columns := ["row_id"] } { opDefault with columns := ["row_id"] }
    [JsonVal.num "x"] [JsonVal.num "x"]
    (Err.badSyntax "ParseUint" "x") (Err.badSyntax "ParseUint" "x")
  exact ⟨h.1 (by decide), h.2 (by decide)⟩

/-- C3 counterexample: n_calls is a wire column of Block (the struct tag
of NContractCalls), its element 5 is non-null and parses, yet the
array-form decode succeeds with the whole record still at its zero
value: the listed, non-null column is not populated. -/
theorem c3_counterexample :
    blockUnmarshalJSONBrief extTest ["n_calls"] [JsonVal.num "5"] = Res.ok blockDefault ∧
    goAtoi "5" = Res.ok 5 ∧
    blockDefault.NContractCalls = 0 := by
  refine ⟨rfl, by decide, rfl⟩

/-- C3 amended: when the requested columns are drawn without repetition
from the switch-recognized wire columns of Block, a successful
array-form decode populates exactly the listed non-null columns: every
field no listed column populates keeps its zero value, a null element
keeps its column's field at the zero value (an explicit skip, not an
error: the all-null row of the same shape always decodes to the zero
record), and each non-null element's field holds exactly the value of
its column's independent single-column parse. -/
theorem c3_partial_projection (ext : ExtDeps) (ks : List BCol) (unpacked : List JsonVal) (r : Block)
    (hnd : ks.Nodup)
    (_hlen : unpacked.length = ks.length)
    (hok : blockUnmarshalJSONBrief ext (ks.map BCol.name) unpacked = Res.ok r) :
    (∀ f : BField, (∀ k ∈ ks, k.field ≠ f) → blockGet f r = blockGet f blockDefault)
    ∧ (∀ j (hj : j < ks.length), listGet? unpacked j = some JsonVal.null →
        blockGet (ks[j].field) r = blockGet (ks[j].field) blockDefault)
    ∧ (∀ j (hj : j < ks.length) (f0 : JsonVal), listGet? unpacked j = some f0 → f0.isNull = false →
        ∃ b0 : Block, applyBlockCol ext blockDefault (ks[j]).name f0 = Res.ok b0 ∧
          blockGet (ks[j].field) r = blockGet (ks[j].field) b0)
    ∧ blockUnmarshalJSONBrief ext (ks.map BCol.name) (List.replicate ks.length JsonVal.null) = Res.ok blockDefault := by
  have hndf : (ks.map BCol.field).Nodup := hnd.map bColFieldInj
  refine ⟨?_, ?_, ?_, ?_⟩
  · intro f hf
    exact blockLoopFrame ext unpacked ks 0 blockDefault r hok f hf
  · intro j hj hnull
    exact blockLoopNullSkip ext unpacked ks 0 blockDefault r hok hndf j hj (by simpa using hnull)
  · intro j hj f0 hget hnn
    exact blockLoopPop ext unpacked ks 0 blockDefault r hok hndf j hj f0 (by simpa using hget) hnn
  · apply briefLoopG_allnull
    intro j hj
    simp only [Nat.zero_add]
    exact listGetReplicate JsonVal.null ks.length j (by simpa using hj)

/-- C3 witness: decoding columns height and time from a row whose time
element is null keeps Timestamp at zero and leaves an unlisted field
such as Cycle at zero. -/
theorem c3_witness :
    blockGet BField.cycle { blockDefault with Height := 7 } = blockGet BField.cycle blockDefault ∧
    blockGet BField.timestamp { blockDefault with Height := 7 } = blockGet BField.timestamp blockDefault := by
  constructor
  · have h := c3_partial_projection extTest [BCol.height, BCol.time]
      [JsonVal.num "7", JsonVal.null] { blockDefault with Height := 7 }
      (by decide) (by decide) (by rfl)
    exact h.1 BField.cycle (by decide)
  · have h := c3_partial_projection extTest [BCol.height, BCol.time]
      [JsonVal.num "7", JsonVal.null] { blockDefault with Height := 7 }
      (by decide) (by decide) (by rfl)
    exact h.2.1 1 (by decide) (by rfl)

/-- C2 evaluation at a failing logical row: the verbose object form of a
block whose n_calls column is 5 populates NContractCalls with 5, while
the positional array form under the complete tag column list leaves it
at 0, because the switch case is spelled n_contract_calls and therefore
never matches the wire column n_calls. -/
theorem c2_divergence :
    Res.map Block.NContractCalls (blockUnmarshalObject extTest blockDefault [("n_calls", JsonVal.num "5")]) = Res.ok 5
    ∧ Res.map Block.NContractCalls
        (blockUnmarshalJSONBrief extTest blockTagColumns
          (List.replicate 20 JsonVal.null ++ JsonVal.num "5" :: List.replicate 23 JsonVal.null)) = Res.ok 0
    ∧ blockTagColumns.length =
        (List.replicate 20 JsonVal.null ++ JsonVal.num "5" :: List.replicate 23 JsonVal.null).length
    ∧ listGet? blockTagColumns 20 = some "n_calls"
    ∧ listGet? (List.replicate 20 JsonVal.null ++ JsonVal.num "5" :: List.replicate 23 JsonVal.null) 20 =
        some (JsonVal.num "5") := by
  exact ⟨rfl, rfl, rfl, rfl, rfl⟩

theorem wrap64Id (x : Int) (h1 : -(2 : Int) ^ 63 ≤ x) (h2 : x < 2 ^ 63) : wrap64 x = x := by
  unfold wrap64
  have e63 : (2 : Int) ^ 63 = 9223372036854775808 := by norm_num
  have e64 : (2 : Int) ^ 64 = 18446744073709551616 := by norm_num
  rw [e63, e64] at *
  have h3 : (0 : Int) ≤ x + 9223372036854775808 := by omega
  have h4 : x + 9223372036854775808 < 18446744073709551616 := by omega
  rw [Int.emod_eq_of_lt h3 h4]
  omega

/-- C4: both cited time cases scale the parsed Unix-millisecond integer
by exactly 1000000 to nanoseconds (the product is an int64 and wraps,
and equals the exact product whenever it is representable), and the
integer identifier columns parse the raw decimal text of the JSON
number through the digit-wise strconv embedding, with no
floating-point intermediate anywhere in their dataflow. -/
theorem c4_wire_numbers (ext : ExtDeps) (octx : Op) (r : Block) (op : Op) (s : String) :
    (applyBlockCol ext r "time" (JsonVal.num s) =
      Res.map (fun ts => { r with Timestamp := ⟨goMul64 ts 1000000⟩ }) (parseI64 s))
    ∧ (applyOpCol ext octx op "time" (JsonVal.num s) =
      Res.map (fun ts => { op with Timestamp := ⟨goMul64 ts 1000000⟩ }) (parseI64 s))
    ∧ (∀ ms : Int, parseI64 s = Res.ok ms → -(2 : Int) ^ 63 ≤ ms * 1000000 → ms * 1000000 < 2 ^ 63 →
        ∃ b2 : Block, applyBlockCol ext r "time" (JsonVal.num s) = Res.ok b2 ∧
          b2.Timestamp = ⟨ms * 1000000⟩)
    ∧ (applyBlockCol ext r "row_id" (JsonVal.num s) =
      Res.map (fun x => { r with RowId := x }) (parseU64 s))
    ∧ (applyOpCol ext octx op "sender_id" (JsonVal.num s) =
      Res.map (fun x => { op with SenderId := x }) (parseU64 s)) := by
  refine ⟨rfl, rfl, ?_, rfl, rfl⟩
  intro ms hms h1 h2
  refine ⟨{ r with Timestamp := ⟨goMul64 ms 1000000⟩ }, ?_, ?_⟩
  · have h3 : applyBlockCol ext r "time" (JsonVal.num s) =
        Res.map (fun ts => ({ r with Timestamp := ⟨goMul64 ts 1000000⟩ } : Block)) (parseI64 s) := rfl
    rw [h3, hms]
    rfl
  · show Instant.mk (goMul64 ms 1000000) = ⟨ms * 1000000⟩
    unfold goMul64
    rw [wrap64Id (ms * 1000000) h1 h2]

/-- C4 witness at a realistic millisecond timestamp. -/
theorem c4_witness :
    Res.map (fun b => b.Timestamp.ns)
      (applyBlockCol extTest blockDefault "time" (JsonVal.num "1700000000000")) =
      Res.ok 1700000000000000000 := by
  obtain ⟨b2, hb2, hts⟩ := (c4_wire_numbers extTest opDefault blockDefault opDefault
    "1700000000000").2.2.1 1700000000000 (by decide) (by decide) (by decide)
  rw [hb2]
  show Res.ok b2.Timestamp.ns = Res.ok 1700000000000000000
  rw [hts]
  norm_num

theorem retryLoopResp (t : Nat → DoResult) (cd : Nat → Bool) (r k : Nat) (rr : HttpResp)
    (h : t k = DoResult.resp rr) : retryLoop t cd r k = LoopOut.brk (DoResult.resp rr) (k + 1) := by
  conv_lhs => unfold retryLoop
  simp [h]

theorem retryLoopNonNet (t : Nat → DoResult) (cd : Nat → Bool) (r k : Nat) (e : GoErr)
    (h : t k = DoResult.fail e) (hn : e.isNet = false) :
    retryLoop t cd r k = LoopOut.brk (DoResult.fail e) (k + 1) := by
  conv_lhs => unfold retryLoop
  simp [h, hn]

theorem retryLoopCancel (t : Nat → DoResult) (cd : Nat → Bool) (r k : Nat) (e : GoErr)
    (h : t k = DoResult.fail e) (hn : e.isNet = true) (hc : cd k = true) :
    retryLoop t cd r k = LoopOut.ctxCancelled (k + 1) := by
  conv_lhs => unfold retryLoop
  simp [h, hn, hc]

theorem retryLoopExhaust (t : Nat → DoResult) (cd : Nat → Bool)
    (htrans : ∀ j, ∃ e, t j = DoResult.fail e ∧ e.isNet = true) (hcd : ∀ j, cd j = false) :
    ∀ r k, ∃ e, retryLoop t cd r k = LoopOut.exhausted e (k + r + 1) ∧ e.isNet = true := by
  intro r
  induction r with
  | zero =>
    intro k
    obtain ⟨e, he, hn⟩ := htrans k
    refine ⟨e, ?_, hn⟩
    conv_lhs => unfold retryLoop
    simp [he, hn, hcd k]
  | succ r2 ih =>
    intro k
    obtain ⟨e, he, hn⟩ := htrans k
    obtain ⟨e2, he2, hn2⟩ := ih (k + 1)
    refine ⟨e2, ?_, hn2⟩
    conv_lhs => unfold retryLoop
    simp [he, hn, hcd k]
    rw [show k + (r2 + 1) + 1 = k + 1 + r2 + 1 by omega]
    exact he2

/-- C5: with retry count N, an always-transient transport and no
cancellation, handleRequest performs exactly N + 1 attempts and then
delivers the transient error; any attempt that yields a response (any
HTTP status) or a non-transient error terminates the loop immediately,
so it is never retried; and a non-negative WithRetry argument is stored
as the retry count unchanged. -/
theorem c5_retry_bound :
    (∀ (N : Nat) (t : Nat → DoResult) (cd : Nat → Bool) (ctxErr : GoErr) (iws wr : Bool)
      (sce : Option GoErr) (um : List Nat → Option GoErr),
      (∀ j, ∃ e, t j = DoResult.fail e ∧ e.isNet = true) → (∀ j, cd j = false) →
      (handleRequestModel N t cd ctxErr iws wr sce um).attempts = N + 1 ∧
      ∃ e, (handleRequestModel N t cd ctxErr iws wr sce um).errOut = some (ClientErr.fromGo e) ∧ e.isNet = true)
    ∧ (∀ (t : Nat → DoResult) (cd : Nat → Bool) (r k : Nat) (rr : HttpResp),
      t k = DoResult.resp rr → retryLoop t cd r k = LoopOut.brk (DoResult.resp rr) (k + 1))
    ∧ (∀ (t : Nat → DoResult) (cd : Nat → Bool) (r k : Nat) (e : GoErr),
      t k = DoResult.fail e → e.isNet = false → retryLoop t cd r k = LoopOut.brk (DoResult.fail e) (k + 1))
    ∧ (∀ num : Int, 0 ≤ num → (withRetryNumRetries num : Int) = num) := by
  refine ⟨?_, retryLoopResp, retryLoopNonNet, ?_⟩
  · intro N t cd ctxErr iws wr sce um htrans hcd
    obtain ⟨e, hloop, hn⟩ := retryLoopExhaust t cd htrans hcd N 0
    rw [show (0 : Nat) + N + 1 = N + 1 by omega] at hloop
    unfold handleRequestModel
    rw [hloop]
    exact ⟨rfl, e, rfl, hn⟩
  · intro num hnum
    unfold withRetryNumRetries
    rw [if_neg (by omega)]
    exact Int.toNat_of_nonneg hnum

/-- C5 witness: two retries, an always-refused connection, three
attempts. -/
theorem c5_witness :
    (handleRequestModel 2 (fun _ => DoResult.fail ⟨true, 7⟩) (fun _ => false) ⟨false, 99⟩
      false true none (fun _ => none)).attempts = 3 := by
  exact ((c5_retry_bound.1 2 (fun _ => DoResult.fail ⟨true, 7⟩) (fun _ => false) ⟨false, 99⟩
    false true none (fun _ => none) (fun _ => ⟨⟨true, 7⟩, rfl, rfl⟩) (fun _ => rfl)).1)

/-- C6: a delivered 429 response becomes the distinguished rate-limit
error carrying the fixed five-second default resume window and is
neither a transport error nor a plain HTTP status error; a cancellation
that fires during a retry wait stops the loop immediately after that
attempt and handleRequest then delivers the context's own error, not
the attempt's network error. -/
theorem c6_rate_limit_and_cancel :
    (∀ (N : Nat) (t : Nat → DoResult) (cd : Nat → Bool) (ctxErr : GoErr) (iws wr : Bool)
      (sce : Option GoErr) (um : List Nat → Option GoErr) (rr : HttpResp) (n : Nat),
      retryLoop t cd N 0 = LoopOut.brk (DoResult.resp rr) n → rr.readErr = none → rr.status = 429 →
      (handleRequestModel N t cd ctxErr iws wr sce um).errOut =
        some (ClientErr.rateLimited rateLimitDefaultWaitNs 429) ∧
      (∀ e : GoErr, ClientErr.rateLimited rateLimitDefaultWaitNs 429 ≠ ClientErr.fromGo e) ∧
      (∀ (st : Nat) (bd : List Nat), ClientErr.rateLimited rateLimitDefaultWaitNs 429 ≠ ClientErr.httpStatus st bd))
    ∧ (∀ (t : Nat → DoResult) (cd : Nat → Bool) (r k : Nat) (e : GoErr),
      t k = DoResult.fail e → e.isNet = true → cd k = true →
      retryLoop t cd r k = LoopOut.ctxCancelled (k + 1))
    ∧ (∀ (N : Nat) (t : Nat → DoResult) (cd : Nat → Bool) (ctxErr : GoErr) (iws wr : Bool)
      (sce : Option GoErr) (um : List Nat → Option GoErr) (n : Nat),
      retryLoop t cd N 0 = LoopOut.ctxCancelled n →
      (handleRequestModel N t cd ctxErr iws wr sce um).errOut = some (ClientErr.fromGo ctxErr) ∧
      (handleRequestModel N t cd ctxErr iws wr sce um).attempts = n) := by
  refine ⟨?_, retryLoopCancel, ?_⟩
  · intro N t cd ctxErr iws wr sce um rr n hloop hread hst
    unfold handleRequestModel
    rw [hloop]
    refine ⟨?_, ⟨fun e h => ClientErr.noConfusion h, fun st bd h => ClientErr.noConfusion h⟩⟩
    show processResp rr iws wr sce um = some (ClientErr.rateLimited rateLimitDefaultWaitNs 429)
    unfold processResp
    rw [hread, hst]
    norm_num
  · intro N t cd ctxErr iws wr sce um n hloop
    unfold handleRequestModel
    rw [hloop]
    exact ⟨rfl, rfl⟩

/-- C6 witness: a transport whose sole attempt answers 429 with an
empty readable body yields the rate-limit error; and a transport whose
attempt fails transiently while the context is already done yields a
one-attempt cancellation. -/
theorem c6_witness :
    (handleRequestModel 0 (fun _ => DoResult.resp ⟨429, [], none, "", 0⟩) (fun _ => false) ⟨false, 3⟩
      false true none (fun _ => none)).errOut = some (ClientErr.rateLimited rateLimitDefaultWaitNs 429) ∧
    retryLoop (fun _ => DoResult.fail ⟨true, 7⟩) (fun _ => true) 5 0 = LoopOut.ctxCancelled 1 := by
  constructor
  · exact ((c6_rate_limit_and_cancel.1 0 (fun _ => DoResult.resp ⟨429, [], none, "", 0⟩) (fun _ => false)
      ⟨false, 3⟩ false true none (fun _ => none) ⟨429, [], none, "", 0⟩ 1
      (retryLoopResp (fun _ => DoResult.resp ⟨429, [], none, "", 0⟩) (fun _ => false) 0 0
        ⟨429, [], none, "", 0⟩ rfl) rfl rfl).1)
  · exact c6_rate_limit_and_cancel.2.1 (fun _ => DoResult.fail ⟨true, 7⟩) (fun _ => true) 5 0 ⟨true, 7⟩ rfl rfl rfl

theorem valuesGetSetSame : ∀ (q : List (String × List String)) (k v : String),
    valuesGet (valuesSet q k v) k = v := by
  intro q k v
  induction q with
  | nil => simp [valuesSet, valuesGet, List.find?]
  | cons kv rest ih =>
    by_cases h : kv.1 = k
    · simp [valuesSet, h, valuesGet, List.find?]
    · simp only [valuesSet, if_neg h, valuesGet, List.find?]
      rw [show (decide (kv.1 = k)) = false by simpa using h]
      exact ih

theorem valuesGetSetOther : ∀ (q : List (String × List String)) (k k2 v : String), k2 ≠ k →
    valuesGet (valuesSet q k v) k2 = valuesGet q k2 := by
  intro q k k2 v hne
  induction q with
  | nil =>
    simp only [valuesSet, valuesGet, List.find?]
    rw [show (decide (k = k2)) = false by simpa using fun h => hne h.symm]
  | cons kv rest ih =>
    by_cases h : kv.1 = k
    · simp only [valuesSet, if_pos h, valuesGet, List.find?]
      rw [show (decide (k = k2)) = false by simpa using fun hh => hne hh.symm,
          show (decide (kv.1 = k2)) = false by simp [h]; exact fun hh => hne hh.symm]
    · simp only [valuesSet, if_neg h, valuesGet, List.find?]
      cases hd : decide (kv.1 = k2) with
      | true => rfl
      | false => exact ih

theorem dotKeyNe (a b t : String) (ht : ('.' ∈ t.data) = False) : a ++ "." ++ b ≠ t := by
  intro heq
  have hmem : '.' ∈ (a ++ "." ++ b).data := by
    rw [String.data_append, String.data_append]
    simp [String.data]
  rw [heq] at hmem
  rw [ht] at hmem
  exact hmem

theorem setFiltersGetOther : ∀ (fs : List FilterT) (q : List (String × List String)) (tk : String),
    (('.' ∈ tk.data) = False) → valuesGet (setFilters q fs) tk = valuesGet q tk := by
  intro fs
  induction fs with
  | nil => intro q tk _; rfl
  | cons f rest ih =>
    intro q tk ht
    show valuesGet (setFilters (valuesSet q (f.Column ++ "." ++ f.Mode) (filterValueStr f.Value)) rest) tk =
      valuesGet q tk
    rw [ih (valuesSet q (f.Column ++ "." ++ f.Mode) (filterValueStr f.Value)) tk ht]
    exact valuesGetSetOther q (f.Column ++ "." ++ f.Mode) tk (filterValueStr f.Value)
      (fun heq => dotKeyNe f.Column f.Mode tk ht heq.symm)

theorem tqCursorStepGetOther (q : TableQueryT) (tk : String) (h : tk ≠ "cursor") :
    valuesGet (tqCursorStep q) tk = valuesGet q.params tk := by
  unfold tqCursorStep
  split_ifs with hc
  · exact valuesGetSetOther _ "cursor" tk _ h
  · rfl

theorem tqLimitStepGetOther (q : TableQueryT) (tk : String) (h : tk ≠ "limit") :
    valuesGet (tqLimitStep q) tk = valuesGet (tqCursorStep q) tk := by
  unfold tqLimitStep
  split_ifs with hc
  · exact valuesGetSetOther _ "limit" tk _ h
  · rfl

theorem tqColumnsStepGetOther (q : TableQueryT) (tk : String) (h : tk ≠ "columns") :
    valuesGet (tqColumnsStep q) tk = valuesGet (tqLimitStep q) tk := by
  unfold tqColumnsStep
  split_ifs with hc
  · exact valuesGetSetOther _ "columns" tk _ h
  · rfl

theorem tqUrlGetCore (q : TableQueryT) (tk : String) (hdot : ('.' ∈ tk.data) = False)
    (h1 : tk ≠ "order") (h2 : tk ≠ "verbose") :
    valuesGet (tableQueryUrlValues q) tk = valuesGet (tqColumnsStep q) tk := by
  unfold tableQueryUrlValues
  rw [valuesGetSetOther _ "order" tk _ h1, setFiltersGetOther _ _ tk hdot]
  split_ifs with hv
  · exact valuesGetSetOther _ "verbose" tk _ h2
  · rfl

/-- C7: in the parameter map Url builds, a positive cursor always sets
the cursor parameter to its decimal form, overwriting any cursor in the
base parameters; an existing non-empty limit parameter survives
unchanged; and the query's positive Limit is written only when no limit
value is present. -/
theorem c7_cursor_limit (q : TableQueryT) :
    (0 < q.Cursor → valuesGet (tableQueryUrlValues q) "cursor" = formatNatDec q.Cursor)
    ∧ (valuesGet q.params "limit" ≠ "" →
        valuesGet (tableQueryUrlValues q) "limit" = valuesGet q.params "limit")
    ∧ (0 < q.Limit → valuesGet q.params "limit" = "" →
        valuesGet (tableQueryUrlValues q) "limit" = formatIntDec q.Limit) := by
  refine ⟨?_, ?_, ?_⟩
  · intro hc
    rw [tqUrlGetCore q "cursor" (by simp) (by decide) (by decide),
        tqColumnsStepGetOther q "cursor" (by decide),
        tqLimitStepGetOther q "cursor" (by decide)]
    unfold tqCursorStep
    rw [if_pos hc]
    exact valuesGetSetSame _ "cursor" _
  · intro hne
    rw [tqUrlGetCore q "limit" (by simp) (by decide) (by decide),
        tqColumnsStepGetOther q "limit" (by decide)]
    unfold tqLimitStep
    split_ifs with hc
    · exact absurd (by rw [← tqCursorStepGetOther q "limit" (by decide)]; exact hc.2) hne
    · exact tqCursorStepGetOther q "limit" (by decide)
  · intro hl habsent
    rw [tqUrlGetCore q "limit" (by simp) (by decide) (by decide),
        tqColumnsStepGetOther q "limit" (by decide)]
    unfold tqLimitStep
    rw [if_pos ⟨hl, by rw [tqCursorStepGetOther q "limit" (by decide)]; exact habsent⟩]
    exact valuesGetSetSame _ "limit" _

/-- C7 witness: a query with cursor 54 over base parameters that already
carry cursor and limit values keeps the caller limit and overwrites the
cursor. -/
theorem c7_witness :
    valuesGet (tableQueryUrlValues
      { params := [("cursor", ["9"]), ("limit", ["2"])], Table := "block", Format := "json",
        Columns := [], Limit := 50000, Cursor := 54, Verbose := false, Prim := false,
        Filter := [], Order := "asc" }) "cursor" = formatNatDec 54 ∧
    valuesGet (tableQueryUrlValues
      { params := [("cursor", ["9"]), ("limit", ["2"])], Table := "block", Format := "json",
        Columns := [], Limit := 50000, Cursor := 54, Verbose := false, Prim := false,
        Filter := [], Order := "asc" }) "limit" = "2" := by
  constructor
  · exact (c7_cursor_limit _).1 (by decide)
  · exact (c7_cursor_limit _).2.1 (by decide)

theorem firstBadFilterSome : ∀ (l : List FilterT),
    (∃ f ∈ l, f.Column = "" ∨ f.Mode = "" ∨ f.Value = none) → ∃ e, firstBadFilter l = some e := by
  intro l
  induction l with
  | nil => intro h; obtain ⟨f, hf, _⟩ := h; cases hf
  | cons f rest ih =>
    intro h
    unfold firstBadFilter
    by_cases hcol : f.Column = ""
    · rw [if_pos hcol]; exact ⟨_, rfl⟩
    · rw [if_neg hcol]
      by_cases hmode : f.Mode = ""
      · rw [if_pos hmode]; exact ⟨_, rfl⟩
      · rw [if_neg hmode]
        cases hval : f.Value with
        | none => exact ⟨_, rfl⟩
        | some s =>
          apply ih
          obtain ⟨g, hg, hbad⟩ := h
          cases hg with
          | head =>
            rcases hbad with hb | hb | hb
            · exact absurd hb hcol
            · exact absurd hb hmode
            · rw [hval] at hb; cases hb
          | tail _ hmem => exact ⟨g, hmem, hbad⟩

/-- C8: whenever the table name is empty, some filter has an empty
column, an empty mode or a nil value, or the format is not one of the
accepted values (json, csv, or unset), QueryTable returns an error and
performs no network call, whatever the abstract Params.Check does. -/
theorem c8_validation (pc : List (String × List String) → Option Err) (oracle : TableQueryT → Res Unit)
    (q : TableQueryT)
    (hbad : q.Table = "" ∨ (∃ f ∈ q.Filter, f.Column = "" ∨ f.Mode = "" ∨ f.Value = none) ∨
      ¬(q.Format = "json" ∨ q.Format = "csv" ∨ q.Format = "")) :
    (∃ e, (queryTableModel pc oracle q).1 = Res.err e) ∧ (queryTableModel pc oracle q).2 = 0 := by
  suffices h : ∃ e, tableQueryCheck pc q = some e by
    obtain ⟨e, he⟩ := h
    unfold queryTableModel
    rw [he]
    exact ⟨⟨e, rfl⟩, rfl⟩
  unfold tableQueryCheck
  cases hpc : pc q.params with
  | some e => exact ⟨e, rfl⟩
  | none =>
    by_cases htab : q.Table = ""
    · rw [if_pos htab]; exact ⟨_, rfl⟩
    · rw [if_neg htab]
      rcases hbad with h | h | h
      · exact absurd h htab
      · obtain ⟨e, he⟩ := firstBadFilterSome q.Filter h
        rw [he]
        exact ⟨e, rfl⟩
      · cases hff : firstBadFilter q.Filter with
        | some e => exact ⟨e, rfl⟩
        | none => rw [if_neg h]; exact ⟨_, rfl⟩

/-- C8 witness: a filter with an empty mode fails validation before any
dispatch, for an oracle that would otherwise succeed. -/
theorem c8_witness :
    (queryTableModel (fun _ => none) (fun _ => Res.ok ())
      { params := [], Table := "block", Format := "json", Columns := [], Limit := 0, Cursor := 0,
        Verbose := false, Prim := false,
        Filter := [{ Mode := "", Column := "height", Value := some "100" }], Order := "asc" }).2 = 0 := by
  exact (c8_validation (fun _ => none) (fun _ => Res.ok ()) _
    (Or.inr (Or.inl ⟨{ Mode := "", Column := "height", Value := some "100" }, by simp, Or.inr (Or.inl rfl)⟩))).2

theorem cacheGetAdd : ∀ (cache : List (String × ContractScriptT)) (k : String) (s : ContractScriptT),
    cacheGet (cacheAdd cache k s) k = some s := by
  intro cache k s
  induction cache with
  | nil => simp [cacheAdd, cacheGet, List.find?]
  | cons kv rest ih =>
    by_cases h : kv.1 = k
    · simp [cacheAdd, h, cacheGet, List.find?]
    · simp only [cacheAdd, if_neg h, cacheGet, List.find?]
      rw [show (decide (kv.1 = k)) = false by simpa using h]
      exact ih

theorem repeatLoadCached (bo : MichScript → List (String × Int)) (bto : MichScript → List (String × MichType))
    (fetch : String → Res ContractScriptT) :
    ∀ (k : Nat) (cache : List (String × ContractScriptT)) (a : String) (s : ContractScriptT),
    cacheGet cache a = some s →
    repeatLoad bo bto fetch k cache a = (0, List.replicate k (Res.ok s), cache) := by
  intro k
  induction k with
  | zero => intro cache a s _; rfl
  | succ m ih =>
    intro cache a s hhit
    have hload : loadCachedContractScript bo bto fetch cache a = (.ok s, 0, cache) := by
      unfold loadCachedContractScript
      rw [hhit]
    show (match loadCachedContractScript bo bto fetch cache a with
      | (r, n, cache2) =>
        match repeatLoad bo bto fetch m cache2 a with
        | (m2, rs, cache3) => (n + m2, r :: rs, cache3)) = _
    rw [hload]
    show (match repeatLoad bo bto fetch m cache a with
      | (m2, rs, cache3) => (0 + m2, Res.ok s :: rs, cache3)) = _
    rw [ih cache a s hhit]
    simp [List.replicate_succ]

/-- C9: for a distinct address that is not yet cached, the first call of
loadCachedContractScript performs exactly one network fetch, strips the
executable code and view subtrees, derives the bigmap name, type and
id-keyed type tables from the stripped script, populates the cache, and
returns the processed descriptor; while the entry remains cached every
further call (any number of repeats) performs zero fetches and returns
that same descriptor, leaving the cache unchanged. -/
theorem c9_cache_once (bo : MichScript → List (String × Int)) (bto : MichScript → List (String × MichType))
    (fetch : String → Res ContractScriptT) (cache0 : List (String × ContractScriptT)) (a : String)
    (raw : ContractScriptT) (hmiss : cacheGet cache0 a = none) (hfetch : fetch a = Res.ok raw) :
    (loadCachedContractScript bo bto fetch cache0 a =
      (Res.ok (stripAndDerive bo bto raw), 1, cacheAdd cache0 a (stripAndDerive bo bto raw)))
    ∧ cacheGet (cacheAdd cache0 a (stripAndDerive bo bto raw)) a = some (stripAndDerive bo bto raw)
    ∧ (∀ k, repeatLoad bo bto fetch k (cacheAdd cache0 a (stripAndDerive bo bto raw)) a =
        (0, List.replicate k (Res.ok (stripAndDerive bo bto raw)),
          cacheAdd cache0 a (stripAndDerive bo bto raw))) := by
  refine ⟨?_, cacheGetAdd cache0 a _, ?_⟩
  · unfold loadCachedContractScript
    rw [hmiss, hfetch]
  · intro k
    exact repeatLoadCached bo bto fetch k _ a _ (cacheGetAdd cache0 a _)

/-- C9 witness: one concrete miss-then-hit run with a constant fetch. -/
theorem c9_witness :
    (repeatLoad (fun _ => []) (fun _ => []) (fun _ => Res.ok ⟨⟨⟨⟨1⟩, ⟨2⟩, ⟨3⟩, ⟨4⟩⟩, ⟨5⟩⟩, ⟨0⟩, ⟨0⟩, ⟨0⟩, [], [], []⟩)
      3 (cacheAdd [] "KT1x" (stripAndDerive (fun _ => []) (fun _ => [])
        ⟨⟨⟨⟨1⟩, ⟨2⟩, ⟨3⟩, ⟨4⟩⟩, ⟨5⟩⟩, ⟨0⟩, ⟨0⟩, ⟨0⟩, [], [], []⟩)) "KT1x").1 = 0 := by
  have h := c9_cache_once (fun _ => []) (fun _ => [])
    (fun _ => Res.ok ⟨⟨⟨⟨1⟩, ⟨2⟩, ⟨3⟩, ⟨4⟩⟩, ⟨5⟩⟩, ⟨0⟩, ⟨0⟩, ⟨0⟩, [], [], []⟩) [] "KT1x"
    ⟨⟨⟨⟨1⟩, ⟨2⟩, ⟨3⟩, ⟨4⟩⟩, ⟨5⟩⟩, ⟨0⟩, ⟨0⟩, ⟨0⟩, [], [], []⟩ rfl rfl
  rw [h.2.2 3]
